import Mathlib

/-!
# event-pipeline: consumer, dead-letter queue, storage layer and query API

A shallow embedding of the Go services of the repository.

* `internal/models/events.go`   : `Envelope` and the four payload structures
* `internal/storage/mssql.go`   : the four tables, the `MERGE` upserts, the read queries
* `internal/dlq/redis.go`       : `DLQMessage`, `Client.Push`
* `internal/kafka/client.go`    : `ConsumerHandler.ConsumeClaim`
* `cmd/consumer/main.go`        : the per-message closure `Handle`
* `cmd/api/main.go`             : the `GET /users/{id}` handler and `writeJSONError`

Everything outside the repository (the database server, Redis, the clock, the
environment and `encoding/json` decoding) is an explicit input `Env`; the mutable
state of one process and of its backing stores is an explicit `World`.
-/

set_option autoImplicit false
set_option maxRecDepth 100000

namespace EventPipeline

/-! ## Bytes and Go slices -/

/-- A byte string, the contents of a Go `[]byte`. -/
abbrev Bytes := List UInt8

/-- A Go `[]byte` value: `none` is the nil slice, `some bs` a non-nil slice holding `bs`. -/
abbrev ByteSlice := Option Bytes

/-- The bytes held by a slice; the nil slice holds none. -/
def ByteSlice.bytes (s : ByteSlice) : Bytes := s.getD []

/-- UTF-8 bytes of a string (Go strings are byte strings; the texts used here are ASCII). -/
def utf8 (s : String) : Bytes := s.toList.flatMap String.utf8EncodeChar

/-! ## encoding/json: the syntax scanner (`scanner.go`) and `appendCompact` (`indent.go`)

`json.Marshal` runs the scanner over the output of every `MarshalJSON` method, so
whether `json.RawMessage` bytes are syntactically valid decides whether `Marshal`
returns bytes or an error. The scanner is the state machine of the standard library,
one transition per input byte. -/

/-- Return codes of a scanner step (`scanContinue` ... `scanError`), in declaration order. -/
inductive ScanCode
  | scanContinue | scanBeginLiteral | scanBeginObject | scanObjectKey | scanObjectValue
  | scanEndObject | scanBeginArray | scanArrayValue | scanEndArray | scanSkipSpace
  | scanEnd | scanError
  deriving DecidableEq, Repr

/-- The test `v >= scanSkipSpace` of `appendCompact`. -/
def ScanCode.geSkipSpace : ScanCode → Bool
  | .scanSkipSpace | .scanEnd | .scanError => true
  | _ => false

/-- Entries of the scanner's parse-state stack. -/
inductive ParseState
  | parseObjectKey | parseObjectValue | parseArrayValue
  deriving DecidableEq, Repr

/-- The scanner's current step function. -/
inductive Step
  | stateBeginValueOrEmpty | stateBeginValue | stateBeginStringOrEmpty | stateBeginString
  | stateEndValue | stateEndTop
  | stateInString | stateInStringEsc
  | stateInStringEscU | stateInStringEscU1 | stateInStringEscU12 | stateInStringEscU123
  | stateNeg | state1 | state0 | stateDot | stateDot0 | stateE | stateESign | stateE0
  | stateT | stateTr | stateTru | stateF | stateFa | stateFal | stateFals
  | stateN | stateNu | stateNul
  | stateError
  deriving DecidableEq, Repr

/-- The scanner: current step, parse-state stack (innermost first), whether an error
was recorded, and whether the top-level value has ended. -/
structure Scanner where
  step : Step
  parseState : List ParseState
  err : Bool
  endTop : Bool
  deriving DecidableEq, Repr

/-- Nesting limit of the scanner. -/
def maxNestingDepth : Nat := 10000

/-- Method `scanner.reset`. -/
def Scanner.reset : Scanner :=
  { step := .stateBeginValue, parseState := [], err := false, endTop := false }

/-- Method `scanner.error`: record the error and switch to `stateError`. -/
def Scanner.error (s : Scanner) : Scanner × ScanCode :=
  ({ s with step := .stateError, err := true }, .scanError)

def isSpace (c : UInt8) : Bool := c ≤ 0x20 && (c == 0x20 || c == 0x09 || c == 0x0d || c == 0x0a)

def isDigit (c : UInt8) : Bool := 0x30 ≤ c && c ≤ 0x39

def isHex (c : UInt8) : Bool :=
  isDigit c || (0x61 ≤ c && c ≤ 0x66) || (0x41 ≤ c && c ≤ 0x46)

/-- Method `scanner.pushParseState`. -/
def Scanner.pushParseState (s : Scanner) (newParseState : ParseState) (successState : ScanCode) :
    Scanner × ScanCode :=
  let s1 := { s with parseState := newParseState :: s.parseState }
  if s1.parseState.length ≤ maxNestingDepth then (s1, successState) else s1.error

/-- Method `scanner.popParseState`. -/
def Scanner.popParseState (s : Scanner) : Scanner :=
  let rest := s.parseState.tail
  if rest.length = 0 then { s with parseState := rest, step := .stateEndTop, endTop := true }
  else { s with parseState := rest, step := .stateEndValue }

/-- Function `stateEndTop`: a non-space byte after the top-level value records an error,
reported by the next step; the return code is `scanEnd` either way. -/
def stateEndTop (s : Scanner) (c : UInt8) : Scanner × ScanCode :=
  if !isSpace c then (s.error.1, .scanEnd) else (s, .scanEnd)

/-- Function `stateEndValue`. -/
def stateEndValue (s : Scanner) (c : UInt8) : Scanner × ScanCode :=
  match s.parseState with
  | [] => stateEndTop { s with step := .stateEndTop, endTop := true } c
  | ps :: rest =>
    if isSpace c then ({ s with step := .stateEndValue }, .scanSkipSpace)
    else match ps with
      | .parseObjectKey =>
        if c == 0x3a then
          ({ s with parseState := .parseObjectValue :: rest, step := .stateBeginValue }, .scanObjectKey)
        else s.error
      | .parseObjectValue =>
        if c == 0x2c then
          ({ s with parseState := .parseObjectKey :: rest, step := .stateBeginString }, .scanObjectValue)
        else if c == 0x7d then (s.popParseState, .scanEndObject)
        else s.error
      | .parseArrayValue =>
        if c == 0x2c then ({ s with step := .stateBeginValue }, .scanArrayValue)
        else if c == 0x5d then (s.popParseState, .scanEndArray)
        else s.error

/-- Function `stateBeginString`. -/
def stateBeginString (s : Scanner) (c : UInt8) : Scanner × ScanCode :=
  if isSpace c then (s, .scanSkipSpace)
  else if c == 0x22 then ({ s with step := .stateInString }, .scanBeginLiteral)
  else s.error

/-- Function `stateBeginStringOrEmpty`. -/
def stateBeginStringOrEmpty (s : Scanner) (c : UInt8) : Scanner × ScanCode :=
  if isSpace c then (s, .scanSkipSpace)
  else if c == 0x7d then
    stateEndValue { s with parseState := .parseObjectValue :: s.parseState.tail } c
  else stateBeginString s c

/-- Function `stateBeginValue`. -/
def stateBeginValue (s : Scanner) (c : UInt8) : Scanner × ScanCode :=
  if isSpace c then (s, .scanSkipSpace)
  else if c == 0x7b then
    { s with step := .stateBeginStringOrEmpty }.pushParseState .parseObjectKey .scanBeginObject
  else if c == 0x5b then
    { s with step := .stateBeginValueOrEmpty }.pushParseState .parseArrayValue .scanBeginArray
  else if c == 0x22 then ({ s with step := .stateInString }, .scanBeginLiteral)
  else if c == 0x2d then ({ s with step := .stateNeg }, .scanBeginLiteral)
  else if c == 0x30 then ({ s with step := .state0 }, .scanBeginLiteral)
  else if c == 0x74 then ({ s with step := .stateT }, .scanBeginLiteral)
  else if c == 0x66 then ({ s with step := .stateF }, .scanBeginLiteral)
  else if c == 0x6e then ({ s with step := .stateN }, .scanBeginLiteral)
  else if 0x31 ≤ c && c ≤ 0x39 then ({ s with step := .state1 }, .scanBeginLiteral)
  else s.error

/-- Function `stateBeginValueOrEmpty`. -/
def stateBeginValueOrEmpty (s : Scanner) (c : UInt8) : Scanner × ScanCode :=
  if isSpace c then (s, .scanSkipSpace)
  else if c == 0x5d then stateEndValue s c
  else stateBeginValue s c

/-- A step that accepts exactly the byte `want` and moves to `next`. -/
def expectByte (s : Scanner) (c want : UInt8) (next : Step) : Scanner × ScanCode :=
  if c == want then ({ s with step := next }, .scanContinue) else s.error

/-- Function `state0`: after a leading `0`, or the integer digits of a number. -/
def state0 (s : Scanner) (c : UInt8) : Scanner × ScanCode :=
  if c == 0x2e then ({ s with step := .stateDot }, .scanContinue)
  else if c == 0x65 || c == 0x45 then ({ s with step := .stateE }, .scanContinue)
  else stateEndValue s c

/-- Function `stateESign`. -/
def stateESign (s : Scanner) (c : UInt8) : Scanner × ScanCode :=
  if isDigit c then ({ s with step := .stateE0 }, .scanContinue) else s.error

/-- One scanner transition `s.step(s, c)`. -/
def Scanner.next (s : Scanner) (c : UInt8) : Scanner × ScanCode :=
  match s.step with
  | .stateBeginValueOrEmpty => stateBeginValueOrEmpty s c
  | .stateBeginValue => stateBeginValue s c
  | .stateBeginStringOrEmpty => stateBeginStringOrEmpty s c
  | .stateBeginString => stateBeginString s c
  | .stateEndValue => stateEndValue s c
  | .stateEndTop => stateEndTop s c
  | .stateInString =>
    if c == 0x22 then ({ s with step := .stateEndValue }, .scanContinue)
    else if c == 0x5c then ({ s with step := .stateInStringEsc }, .scanContinue)
    else if c < 0x20 then s.error
    else (s, .scanContinue)
  | .stateInStringEsc =>
    if c == 0x62 || c == 0x66 || c == 0x6e || c == 0x72 || c == 0x74 || c == 0x5c
        || c == 0x2f || c == 0x22 then
      ({ s with step := .stateInString }, .scanContinue)
    else if c == 0x75 then ({ s with step := .stateInStringEscU }, .scanContinue)
    else s.error
  | .stateInStringEscU =>
    if isHex c then ({ s with step := .stateInStringEscU1 }, .scanContinue) else s.error
  | .stateInStringEscU1 =>
    if isHex c then ({ s with step := .stateInStringEscU12 }, .scanContinue) else s.error
  | .stateInStringEscU12 =>
    if isHex c then ({ s with step := .stateInStringEscU123 }, .scanContinue) else s.error
  | .stateInStringEscU123 =>
    if isHex c then ({ s with step := .stateInString }, .scanContinue) else s.error
  | .stateNeg =>
    if c == 0x30 then ({ s with step := .state0 }, .scanContinue)
    else if 0x31 ≤ c && c ≤ 0x39 then ({ s with step := .state1 }, .scanContinue)
    else s.error
  | .state1 =>
    if isDigit c then ({ s with step := .state1 }, .scanContinue) else state0 s c
  | .state0 => state0 s c
  | .stateDot =>
    if isDigit c then ({ s with step := .stateDot0 }, .scanContinue) else s.error
  | .stateDot0 =>
    if isDigit c then (s, .scanContinue)
    else if c == 0x65 || c == 0x45 then ({ s with step := .stateE }, .scanContinue)
    else stateEndValue s c
  | .stateE =>
    if c == 0x2b || c == 0x2d then ({ s with step := .stateESign }, .scanContinue)
    else stateESign s c
  | .stateESign => stateESign s c
  | .stateE0 =>
    if isDigit c then (s, .scanContinue) else stateEndValue s c
  | .stateT => expectByte s c 0x72 .stateTr
  | .stateTr => expectByte s c 0x75 .stateTru
  | .stateTru => expectByte s c 0x65 .stateEndValue
  | .stateF => expectByte s c 0x61 .stateFa
  | .stateFa => expectByte s c 0x6c .stateFal
  | .stateFal => expectByte s c 0x73 .stateFals
  | .stateFals => expectByte s c 0x65 .stateEndValue
  | .stateN => expectByte s c 0x75 .stateNu
  | .stateNu => expectByte s c 0x6c .stateNul
  | .stateNul => expectByte s c 0x6c .stateEndValue
  | .stateError => (s, .scanError)

/-- Method `scanner.eof`: `true` when the input seen so far is one complete JSON value
(`scanEnd`), `false` when it is not (`scanError`). -/
def Scanner.eof (s : Scanner) : Bool :=
  if s.err then false
  else if s.endTop then true
  else (s.next 0x20).1.endTop

/-- Function `checkValid` (the test behind `json.Valid`): scan every byte, stop at the
first error, then ask `eof`. -/
def checkValidFrom (s : Scanner) : Bytes → Bool
  | [] => s.eof
  | c :: rest =>
    match s.next c with
    | (_, .scanError) => false
    | (s1, _) => checkValidFrom s1 rest

def checkValid (data : Bytes) : Bool := checkValidFrom Scanner.reset data

/-- Function `appendCompact(dst, src, escape)` with `escape = true`, as `Marshal` calls it:
`none` when `src` is not one valid JSON value, otherwise `src` without insignificant
whitespace, with the bytes `<`, `>`, `&` written as `\u003c`, `\u003e`, `\u0026` and
U+2028, U+2029 written as `\u2028`, `\u2029`. The accumulator `out` is the text
produced so far; `skip` counts the two continuation bytes of a rewritten U+2028/U+2029
that are scanned but not copied. -/
def appendCompactFrom (s : Scanner) (out : Bytes) (skip : Nat) : Bytes → Option Bytes
  | [] => if s.eof then some out else none
  | c :: rest =>
    let isLS : Bool := c == 0xe2 &&
      (match rest with
        | c1 :: c2 :: _ => c1 == 0x80 && (c2 == 0xa8 || c2 == 0xa9)
        | _ => false)
    let html : Bool := c == 0x3c || c == 0x3e || c == 0x26
    let repl : Bytes :=
      if html then utf8 (if c == 0x3c then "\\u003c" else if c == 0x3e then "\\u003e" else "\\u0026")
      else if isLS then
        (match rest with
          | _ :: c2 :: _ => utf8 (if c2 == 0xa8 then "\\u2028" else "\\u2029")
          | _ => [])
      else []
    match s.next c with
    | (_, .scanError) => none
    | (s1, v) =>
      let copy : Bytes := if html || isLS || skip > 0 || v.geSkipSpace then [] else [c]
      appendCompactFrom s1 (out ++ repl ++ copy) (if isLS then 2 else skip - 1) rest

def appendCompact (src : Bytes) : Option Bytes := appendCompactFrom Scanner.reset [] 0 src

/-! ## internal/models/events.go -/

/-- Instants (`time.Time`, `SYSUTCDATETIME()`), as a count of clock ticks. -/
abbrev Time := Nat

/-- A finite Go `float64`: the number `mant * 2 ^ exp`. The values of the Go type are
those with `|mant| < 2 ^ 53` and `-1074 ≤ exp ≤ 971` (`Float64.representable`);
`json.Unmarshal` produces neither an infinity nor a NaN. Two pairs may denote the same
number; the services never compare amounts. -/
structure Float64 where
  mant : Int
  exp : Int
  deriving DecidableEq, Repr

/-- A value of a `DECIMAL(18,2)` column, counted in hundredths (`1000` is `10.00`). -/
abbrev Decimal := Int

structure Envelope where
  EventID : String
  Type_ : String
  OccurredAt : Time
  Key : String
  Payload : Bytes
  deriving DecidableEq, Repr

structure UserCreated where
  UserID : String
  Name : String
  Email : String
  deriving DecidableEq, Repr

structure OrderPlaced where
  OrderID : String
  UserID : String
  Amount : Float64
  deriving DecidableEq, Repr

structure PaymentSettled where
  PaymentID : String
  OrderID : String
  Status : String
  Amount : Float64
  deriving DecidableEq, Repr

structure InventoryAdjusted where
  SKU : String
  Delta : Int
  Reason : String
  deriving DecidableEq, Repr

def TypeUserCreated : String := "UserCreated"
def TypeOrderPlaced : String := "OrderPlaced"
def TypePaymentSettled : String := "PaymentSettled"
def TypeInventoryAdjusted : String := "InventoryAdjusted"

/-! ## internal/storage/mssql.go: tables -/

/-- Row of `dbo.users`. -/
structure UserRow where
  user_id : String
  name : String
  email : String
  updated_at : Time
  deriving DecidableEq, Repr

/-- Row of `dbo.orders`. -/
structure OrderRow where
  order_id : String
  user_id : String
  amount : Decimal
  updated_at : Time
  deriving DecidableEq, Repr

/-- Row of `dbo.payments`. -/
structure PaymentRow where
  payment_id : String
  order_id : String
  status : String
  amount : Decimal
  updated_at : Time
  deriving DecidableEq, Repr

/-- Row of `dbo.inventory`. -/
structure InventoryRow where
  sku : String
  qty : Int
  updated_at : Time
  deriving DecidableEq, Repr

/-- The database `events` after `Init`: the four tables, each a list of rows. -/
structure Store where
  users : List UserRow
  orders : List OrderRow
  payments : List PaymentRow
  inventory : List InventoryRow
  deriving DecidableEq, Repr

def Store.empty : Store := { users := [], orders := [], payments := [], inventory := [] }

/-- Range of an `INT` column. -/
def inInt32 (n : Int) : Bool := decide (-2147483648 ≤ n) && decide (n ≤ 2147483647)

/-- Range of a `DECIMAL(18,2)` column, in hundredths: at most 18 digits. -/
def inDecimal18_2 (a : Decimal) : Bool :=
  decide (-1000000000000000000 < a) && decide (a < 1000000000000000000)

/-- The statement `MERGE t USING (one source row) ON (cond) WHEN MATCHED THEN UPDATE ...
WHEN NOT MATCHED THEN INSERT ...`: every target row satisfying the `ON` condition is
updated; when none does, the source row is inserted. -/
def merge {ρ : Type} (t : List ρ) (onCond : ρ → Bool) (update : ρ → ρ) (insert : ρ) : List ρ :=
  if t.any onCond then t.map (fun r => if onCond r then update r else r) else t ++ [insert]

/-- The `MERGE dbo.users` statement of `UpsertUser`, executed at server time `now`. -/
def mergeUsers (now : Time) (id name email : String) (t : List UserRow) : List UserRow :=
  merge t (fun r => r.user_id == id)
    (fun r => { r with name := name, email := email, updated_at := now })
    { user_id := id, name := name, email := email, updated_at := now }

/-- The `MERGE dbo.orders` statement of `UpsertOrder`. -/
def mergeOrders (now : Time) (id userID : String) (amount : Decimal) (t : List OrderRow) :
    List OrderRow :=
  merge t (fun r => r.order_id == id)
    (fun r => { r with user_id := userID, amount := amount, updated_at := now })
    { order_id := id, user_id := userID, amount := amount, updated_at := now }

/-- The `MERGE dbo.payments` statement of `UpsertPayment`. -/
def mergePayments (now : Time) (id orderID status : String) (amount : Decimal)
    (t : List PaymentRow) : List PaymentRow :=
  merge t (fun r => r.payment_id == id)
    (fun r => { r with order_id := orderID, status := status, amount := amount, updated_at := now })
    { payment_id := id, order_id := orderID, status := status, amount := amount, updated_at := now }

/-- The `MERGE dbo.inventory` statement of `UpsertInventory`: a matched row gets
`qty = t.qty + s.delta`, an unmatched key is inserted with `qty = s.delta`. -/
def mergeInventory (now : Time) (sku : String) (delta : Int) (t : List InventoryRow) :
    List InventoryRow :=
  merge t (fun r => r.sku == sku)
    (fun r => { r with qty := r.qty + delta, updated_at := now })
    { sku := sku, qty := delta, updated_at := now }

/-! ## The outside world -/

/-- Everything the services read from outside the repository.

* `dbFault n`: the error the database driver reports for the `n`-th statement sent to
  the server (`none`: the server executes it). Connectivity, timeouts, string truncation
  and every other server-side refusal not modelled below arrive here.
* `dbNow n`: the server's `SYSUTCDATETIME()` while it executes the `n`-th statement.
* `redisFault n`: the error of the `n`-th Redis command, if any.
* `clock n`: the `n`-th reading of `time.Now()` in the process.
* `getenv`: `os.Getenv`.
* `unmarshal...`: `json.Unmarshal` into each of the five structures of
  `internal/models`, `Except.error` carrying the text of the decode error.
* `marshalTime`, `marshalString`: the JSON text `encoding/json` writes for a
  `time.Time` and for a `string`.
* `toDecimal`: the conversion the server applies to a `float64` parameter assigned to
  a `DECIMAL(18,2)` column: the hundredths it stores, or the error it raises.
* `scanFloat64`: the `float64` that `Scan` produces from a `DECIMAL(18,2)` column value. -/
structure Env where
  dbFault : Nat → Option String
  dbNow : Nat → Time
  redisFault : Nat → Option String
  clock : Nat → Time
  getenv : String → String
  unmarshalEnvelope : Bytes → Except String Envelope
  unmarshalUserCreated : Bytes → Except String UserCreated
  unmarshalOrderPlaced : Bytes → Except String OrderPlaced
  unmarshalPaymentSettled : Bytes → Except String PaymentSettled
  unmarshalInventoryAdjusted : Bytes → Except String InventoryAdjusted
  marshalTime : Time → Bytes
  marshalString : String → Bytes
  toDecimal : Float64 → Except String Decimal
  scanFloat64 : Decimal → Float64

/-- Message delivered by the broker (`sarama.ConsumerMessage`). -/
structure ConsumerMessage where
  Key : ByteSlice
  Value : ByteSlice
  Topic : String
  Partition : Int
  Offset : Int
  deriving DecidableEq, Repr

/-- Calls observed during a run, in order (a ghost record, used to count calls).
Storage calls carry the error they returned (`none`: success). -/
inductive Call
  | UpsertUser (id name email : String) (res : Option String)
  | UpsertOrder (id userID : String) (amount : Float64) (res : Option String)
  | UpsertPayment (id orderID status : String) (amount : Float64) (res : Option String)
  | UpsertInventory (sku : String) (delta : Int) (res : Option String)
  | Push (key : String) (payload : ByteSlice) (err : String)
  deriving DecidableEq, Repr

/-- Mutable state: the database, the Redis lists, the three Prometheus collectors of
`internal/metrics`, the offsets marked on the consumer-group session, the numbers of
statements, Redis commands and clock readings issued so far, and the ghost call record. -/
structure World where
  db : Store
  redis : List (String × List Bytes)
  Processed : Nat
  DLQCount : Nat
  DBLatency : List Nat
  marked : List ConsumerMessage
  dbCalls : Nat
  redisCalls : Nat
  clockReads : Nat
  calls : List Call
  deriving DecidableEq, Repr

def World.init : World :=
  { db := Store.empty, redis := [], Processed := 0, DLQCount := 0, DBLatency := [],
    marked := [], dbCalls := 0, redisCalls := 0, clockReads := 0, calls := [] }

/-- Function `time.Now()`. -/
def timeNow (E : Env) (w : World) : Time × World :=
  (E.clock w.clockReads, { w with clockReads := w.clockReads + 1 })

/-! ## internal/storage/mssql.go: upserts -/

/-- Method `d.SQL.ExecContext(ctx, q, args...)` for one `MERGE` statement `stmt`: the
driver may report an error of its own (`dbFault`), in which case the tables are
unchanged; otherwise the server runs the statement atomically at its current time, and
either refuses it with an error (no change) or commits the new tables. -/
def ExecContext (E : Env) (w : World) (stmt : Time → Store → Except String Store) :
    World × Option String :=
  let n := w.dbCalls
  let w1 := { w with dbCalls := n + 1 }
  match E.dbFault n with
  | some e => (w1, some e)
  | none =>
    match stmt (E.dbNow n) w1.db with
    | .error e => (w1, some e)
    | .ok db => ({ w1 with db := db }, none)

/-- Statement of `UpsertUser`. -/
def stmtUpsertUser (id name email : String) (now : Time) (db : Store) : Except String Store :=
  .ok { db with users := mergeUsers now id name email db.users }

/-- Statement of `UpsertOrder`. The `float64` parameter `@p3` is converted to the
`DECIMAL(18,2)` type of the column `amount`; the converted value has to fit the column. -/
def stmtUpsertOrder (E : Env) (id userID : String) (amount : Float64) (now : Time)
    (db : Store) : Except String Store :=
  match E.toDecimal amount with
  | .error e => .error e
  | .ok d =>
    if inDecimal18_2 d then .ok { db with orders := mergeOrders now id userID d db.orders }
    else .error "mssql: Arithmetic overflow error converting float to data type numeric."

/-- Statement of `UpsertPayment`. The `float64` parameter `@p4` is converted to the
`DECIMAL(18,2)` type of the column `amount`; the converted value has to fit the column. -/
def stmtUpsertPayment (E : Env) (id orderID status : String) (amount : Float64) (now : Time)
    (db : Store) : Except String Store :=
  match E.toDecimal amount with
  | .error e => .error e
  | .ok d =>
    if inDecimal18_2 d then
      .ok { db with payments := mergePayments now id orderID status d db.payments }
    else .error "mssql: Arithmetic overflow error converting float to data type numeric."

/-- Statement of `UpsertInventory`; every quantity it writes has to fit the `INT`
column `qty`, otherwise the server refuses the statement. -/
def stmtUpsertInventory (sku : String) (delta : Int) (now : Time) (db : Store) :
    Except String Store :=
  let t := mergeInventory now sku delta db.inventory
  if t.all (fun r => r.sku != sku || inInt32 r.qty) then .ok { db with inventory := t }
  else .error "mssql: Arithmetic overflow error converting expression to data type int."

def UpsertUser (E : Env) (w : World) (id name email : String) : World × Option String :=
  let (w1, err) := ExecContext E w (stmtUpsertUser id name email)
  ({ w1 with calls := w1.calls ++ [.UpsertUser id name email err] }, err)

def UpsertOrder (E : Env) (w : World) (id userID : String) (amount : Float64) :
    World × Option String :=
  let (w1, err) := ExecContext E w (stmtUpsertOrder E id userID amount)
  ({ w1 with calls := w1.calls ++ [.UpsertOrder id userID amount err] }, err)

def UpsertPayment (E : Env) (w : World) (id orderID status : String) (amount : Float64) :
    World × Option String :=
  let (w1, err) := ExecContext E w (stmtUpsertPayment E id orderID status amount)
  ({ w1 with calls := w1.calls ++ [.UpsertPayment id orderID status amount err] }, err)

def UpsertInventory (E : Env) (w : World) (sku : String) (delta : Int) : World × Option String :=
  let (w1, err) := ExecContext E w (stmtUpsertInventory sku delta)
  ({ w1 with calls := w1.calls ++ [.UpsertInventory sku delta err] }, err)

/-! ## internal/storage/mssql.go: queries for the API -/

/-- Errors of the read path: the sentinel `sql.ErrNoRows`, or any other error, with its text. -/
inductive SqlError
  | ErrNoRows
  | other (msg : String)
  deriving DecidableEq, Repr

structure Order where
  OrderID : String
  UserID : String
  Amount : Float64
  deriving DecidableEq, Repr

structure UserWithOrders where
  UserID : String
  Name : String
  Email : String
  Orders : List Order
  deriving DecidableEq, Repr

structure OrderWithPayment where
  OrderID : String
  UserID : String
  Amount : Float64
  PaymentStatus : String
  deriving DecidableEq, Repr

/-- `QueryRowContext(...)` followed by `Scan`, over the rows `rs` that satisfy the
`WHERE` clause: `sql.ErrNoRows` when there is none, otherwise the first row of the
result set. The statement has no `ORDER BY`, so the server may put any of the rows first:
the list holds every possible answer. -/
def queryRow {ρ : Type} (rs : List ρ) : List (Except SqlError ρ) :=
  match rs with
  | [] => [.error .ErrNoRows]
  | _ => rs.map .ok

/-- The result sets `SELECT TOP (n) ... ORDER BY updated_at DESC` may return: the first
`n` rows of any arrangement of the matching rows that is descending in `updated_at`. -/
def topByUpdatedDesc (n : Nat) (rs : List OrderRow) : List (List OrderRow) :=
  (rs.permutations.filter
    (fun l => decide (List.Pairwise (fun a b : OrderRow => b.updated_at ≤ a.updated_at) l))).map
    (List.take n)

/-- Method `GetUserWithLastOrders`: every result the call may return, each with the world
it leaves (only the statement count changes). -/
def GetUserWithLastOrders (E : Env) (w : World) (id : String) (n : Nat) :
    List (World × Except SqlError UserWithOrders) :=
  let w1 := { w with dbCalls := w.dbCalls + 1 }
  match E.dbFault w.dbCalls with
  | some e => [(w1, .error (.other e))]
  | none =>
    (queryRow (w.db.users.filter (fun r => r.user_id == id))).flatMap fun r =>
      match r with
      | .error err => [(w1, .error err)]
      | .ok u =>
        let w2 := { w1 with dbCalls := w1.dbCalls + 1 }
        match E.dbFault w1.dbCalls with
        | some e => [(w2, .error (.other e))]
        | none =>
          (topByUpdatedDesc n (w.db.orders.filter (fun o => o.user_id == id))).map fun os =>
            (w2, .ok { UserID := u.user_id, Name := u.name, Email := u.email,
                       Orders := os.map (fun o => { OrderID := o.order_id, UserID := o.user_id,
                                                    Amount := E.scanFloat64 o.amount }) })

/-- Method `GetOrderWithPayment`: every result the call may return. The payment lookup
`SELECT status FROM dbo.payments WHERE order_id=@p1` treats `sql.ErrNoRows` as "status
stays empty" and returns any other error. -/
def GetOrderWithPayment (E : Env) (w : World) (id : String) :
    List (World × Except SqlError OrderWithPayment) :=
  let w1 := { w with dbCalls := w.dbCalls + 1 }
  match E.dbFault w.dbCalls with
  | some e => [(w1, .error (.other e))]
  | none =>
    (queryRow (w.db.orders.filter (fun r => r.order_id == id))).flatMap fun r =>
      match r with
      | .error err => [(w1, .error err)]
      | .ok o =>
        let w2 := { w1 with dbCalls := w1.dbCalls + 1 }
        match E.dbFault w1.dbCalls with
        | some e => [(w2, .error (.other e))]
        | none =>
          (queryRow (w.db.payments.filter (fun p => p.order_id == id))).map fun r2 =>
            match r2 with
            | .ok p => (w2, .ok { OrderID := o.order_id, UserID := o.user_id,
                                  Amount := E.scanFloat64 o.amount,
                                  PaymentStatus := p.status })
            | .error .ErrNoRows =>
              (w2, .ok { OrderID := o.order_id, UserID := o.user_id,
                         Amount := E.scanFloat64 o.amount, PaymentStatus := "" })
            | .error err => (w2, .error err)

/-! ## internal/dlq/redis.go -/

structure DLQMessage where
  At : Time
  Error : String
  Payload : ByteSlice
  deriving DecidableEq, Repr

/-- Method `json.RawMessage.MarshalJSON`: the bytes themselves, `null` for a nil slice. -/
def RawMessage.MarshalJSON (m : ByteSlice) : Bytes :=
  match m with
  | none => utf8 "null"
  | some b => b

/-- Function `json.Marshal` on a `DLQMessage`: the object with the keys `at`, `error`,
`payload`. The output of `RawMessage.MarshalJSON` goes through `appendCompact`; when it
is not valid JSON, `Marshal` returns a nil slice and a `MarshalerError`. -/
def Marshal (E : Env) (msg : DLQMessage) : ByteSlice × Option String :=
  match appendCompact (RawMessage.MarshalJSON msg.Payload) with
  | none => (none, some "json: error calling MarshalJSON for type json.RawMessage")
  | some p =>
    (some (utf8 "\x7b\"at\":" ++ E.marshalTime msg.At ++ utf8 ",\"error\":"
            ++ E.marshalString msg.Error ++ utf8 ",\"payload\":" ++ p ++ utf8 "\x7d"), none)

/-- Redis `LPUSH key v` on the lists of the store: `v` becomes the head of the list
at `key`, which is created when absent. -/
def lpush (lists : List (String × List Bytes)) (key : String) (v : Bytes) :
    List (String × List Bytes) :=
  if lists.any (fun kv => kv.1 == key) then
    lists.map (fun kv => if kv.1 == key then (kv.1, v :: kv.2) else kv)
  else lists ++ [(key, [v])]

/-- The Redis list stored at `key` (empty when the key is absent). -/
def lrange (lists : List (String × List Bytes)) (key : String) : List Bytes :=
  match lists.find? (fun kv => kv.1 == key) with
  | some kv => kv.2
  | none => []

/-- Call `c.cli.LPush(ctx, key, b).Result()`: a nil slice is sent as the empty string. -/
def LPush (E : Env) (w : World) (key : String) (b : ByteSlice) : World × Option String :=
  let n := w.redisCalls
  let w1 := { w with redisCalls := n + 1 }
  match E.redisFault n with
  | some e => (w1, some e)
  | none => ({ w1 with redis := lpush w1.redis key b.bytes }, none)

/-- Method `Client.Push(ctx, key, payload, err)`; `err` is the text `err.Error()`. -/
def Push (E : Env) (w : World) (key : String) (payload : ByteSlice) (err : String) : World :=
  let w0 := { w with calls := w.calls ++ [.Push key payload err] }
  let (now, w1) := timeNow E w0
  let msg : DLQMessage := { At := now, Error := err, Payload := payload }
  let b := (Marshal E msg).1
  let key1 := if key = "" then "dlq" else key
  match LPush E w1 key1 b with
  | (w2, some _) => w2
  | (w2, none) => { w2 with DLQCount := w2.DLQCount + 1 }

/-! ## cmd/consumer/main.go: the per-message closure -/

/-- The statement pair `dlq.Push(ctx, os.Getenv("DLQ_LIST"), m.Value, err); return nil`. -/
def deadLetter (E : Env) (w : World) (m : ConsumerMessage) (err : String) :
    World × Option String :=
  (Push E w (E.getenv "DLQ_LIST") m.Value err, none)

/-- The closing statements `imetrics.Processed.Inc(); return nil`. -/
def processed (w : World) : World × Option String :=
  ({ w with Processed := w.Processed + 1 }, none)

/-- Body of the closure between the two clock readings: decode the envelope, switch on
its type, decode the payload, upsert; `none` is the `nil` error. -/
def handleBody (E : Env) (w : World) (m : ConsumerMessage) : World × Option String :=
  match E.unmarshalEnvelope m.Value.bytes with
  | .error err => deadLetter E w m err
  | .ok env =>
    if env.Type_ = TypeUserCreated then
      match E.unmarshalUserCreated env.Payload with
      | .error err => deadLetter E w m err
      | .ok e =>
        match UpsertUser E w e.UserID e.Name e.Email with
        | (w1, some err) => deadLetter E w1 m err
        | (w1, none) => processed w1
    else if env.Type_ = TypeOrderPlaced then
      match E.unmarshalOrderPlaced env.Payload with
      | .error err => deadLetter E w m err
      | .ok e =>
        match UpsertOrder E w e.OrderID e.UserID e.Amount with
        | (w1, some err) => deadLetter E w1 m err
        | (w1, none) =>
          match UpsertPayment E w1 e.OrderID e.OrderID "pending" e.Amount with
          | (w2, some err) => deadLetter E w2 m err
          | (w2, none) => processed w2
    else if env.Type_ = TypePaymentSettled then
      match E.unmarshalPaymentSettled env.Payload with
      | .error err => deadLetter E w m err
      | .ok e =>
        match UpsertPayment E w e.PaymentID e.OrderID e.Status e.Amount with
        | (w1, some err) => deadLetter E w1 m err
        | (w1, none) => processed w1
    else if env.Type_ = TypeInventoryAdjusted then
      match E.unmarshalInventoryAdjusted env.Payload with
      | .error err => deadLetter E w m err
      | .ok e =>
        match UpsertInventory E w e.SKU e.Delta with
        | (w1, some err) => deadLetter E w1 m err
        | (w1, none) => processed w1
    else processed w

/-- The closure `Handle` of `main`: `start := time.Now()`, the body, and the deferred
`DBLatency.Observe(time.Since(start))`, which runs on every return. -/
def Handle (E : Env) (w : World) (m : ConsumerMessage) : World × Option String :=
  let (start, w1) := timeNow E w
  let (w2, err) := handleBody E w1 m
  let (stop, w3) := timeNow E w2
  ({ w3 with DBLatency := w3.DBLatency ++ [stop - start] }, err)

/-! ## internal/kafka/client.go: the dispatch adapter -/

/-- Method `ConsumerHandler.ConsumeClaim`: for each message of the claim, call the
handler; mark the message when it returns no error. Returns `nil`. -/
def ConsumeClaim (handle : World → ConsumerMessage → World × Option String) :
    World → List ConsumerMessage → World × Option String
  | w, [] => (w, none)
  | w, msg :: rest =>
    match handle w msg with
    | (w1, some _) => ConsumeClaim handle w1 rest
    | (w1, none) => ConsumeClaim handle { w1 with marked := w1.marked ++ [msg] } rest

/-! ## cmd/api/main.go -/

structure ErrorResponse where
  Error : String
  Message : String
  deriving DecidableEq, Repr

/-- What a handler wrote to its `http.ResponseWriter`. -/
structure Response where
  statusCode : Nat
  contentType : String
  body : Bytes
  deriving DecidableEq, Repr

/-- Function `http.StatusText`, for the status codes the API uses; the library returns
the empty string for a code it does not know. -/
def StatusText (code : Nat) : String :=
  if code = 200 then "OK"
  else if code = 404 then "Not Found"
  else if code = 500 then "Internal Server Error"
  else ""

/-- The text `json.NewEncoder(w).Encode` writes for an `ErrorResponse`: the keys `error`
and `message`, the latter left out when empty (`omitempty`), and a closing newline. -/
def encodeErrorResponse (E : Env) (r : ErrorResponse) : Bytes :=
  utf8 "\x7b\"error\":" ++ E.marshalString r.Error
    ++ (if r.Message = "" then [] else utf8 ",\"message\":" ++ E.marshalString r.Message)
    ++ utf8 "\x7d\n"

def writeJSONError (E : Env) (message : String) (statusCode : Nat) : Response :=
  { statusCode := statusCode, contentType := "application/json",
    body := encodeErrorResponse E { Error := StatusText statusCode, Message := message } }

/-- Function `writeJSON` on a `UserWithOrders`; `encodeUser` stands for the text the
encoder writes for it. No `WriteHeader` call: the status is 200. -/
def writeJSON (encodeUser : UserWithOrders → Bytes) (v : UserWithOrders) : Response :=
  { statusCode := 200, contentType := "application/json", body := encodeUser v }

/-- The `GET /users/{id}` closure after the storage call returned `result`. -/
def respondUser (E : Env) (encodeUser : UserWithOrders → Bytes)
    (result : Except SqlError UserWithOrders) : Response :=
  match result with
  | .error err =>
    if err = SqlError.ErrNoRows then writeJSONError E "user not found" 404
    else writeJSONError E "internal server error" 500
  | .ok u => writeJSON encodeUser u

/-- The `GET /users/{id}` handler: every response it may write for the path parameter `id`. -/
def getUser (E : Env) (encodeUser : UserWithOrders → Bytes) (w : World) (id : String) :
    List (World × Response) :=
  (GetUserWithLastOrders E w id 5).map fun o => (o.1, respondUser E encodeUser o.2)

/-! ## Observables of one handler run -/

def Call.isPush : Call → Bool
  | .Push _ _ _ => true
  | _ => false

/-- The error a storage call returned, if it failed. -/
def Call.failure : Call → Option String
  | .UpsertUser _ _ _ res => res
  | .UpsertOrder _ _ _ res => res
  | .UpsertPayment _ _ _ _ res => res
  | .UpsertInventory _ _ res => res
  | .Push _ _ _ => none

/-- The four event types the consumer materializes. -/
def knownTypes : List String :=
  [TypeUserCreated, TypeOrderPlaced, TypePaymentSettled, TypeInventoryAdjusted]

/-- The error of decoding the payload of `env` into the structure of its type, for the
four known types; `none` when it decodes, and for every other type (whose payload is
never decoded). -/
def payloadError (E : Env) (env : Envelope) : Option String :=
  if env.Type_ = TypeUserCreated then
    (match E.unmarshalUserCreated env.Payload with | .error e => some e | .ok _ => none)
  else if env.Type_ = TypeOrderPlaced then
    (match E.unmarshalOrderPlaced env.Payload with | .error e => some e | .ok _ => none)
  else if env.Type_ = TypePaymentSettled then
    (match E.unmarshalPaymentSettled env.Payload with | .error e => some e | .ok _ => none)
  else if env.Type_ = TypeInventoryAdjusted then
    (match E.unmarshalInventoryAdjusted env.Payload with | .error e => some e | .ok _ => none)
  else none

/-- The decode error of a message: that of the envelope, else that of the payload. -/
def decodeError (E : Env) (m : ConsumerMessage) : Option String :=
  match E.unmarshalEnvelope m.Value.bytes with
  | .error e => some e
  | .ok env => payloadError E env

/-- The failing error of a run that made the calls `cs`: the decode error, else the
error of the first storage call that failed. -/
def failingError (E : Env) (m : ConsumerMessage) (cs : List Call) : Option String :=
  match decodeError E m with
  | some e => some e
  | none => cs.findSome? Call.failure

/-! ## Rows without `updated_at` -/

def UserRow.fields (r : UserRow) : String × String × String := (r.user_id, r.name, r.email)

def OrderRow.fields (r : OrderRow) : String × String × Decimal := (r.order_id, r.user_id, r.amount)

def PaymentRow.fields (r : PaymentRow) : String × String × String × Decimal :=
  (r.payment_id, r.order_id, r.status, r.amount)

def InventoryRow.fields (r : InventoryRow) : String × Int := (r.sku, r.qty)

/-- The rows of the four tables with every column except `updated_at`. -/
structure Rows where
  users : List (String × String × String)
  orders : List (String × String × Decimal)
  payments : List (String × String × String × Decimal)
  inventory : List (String × Int)
  deriving DecidableEq, Repr

def Store.fields (db : Store) : Rows :=
  { users := db.users.map UserRow.fields, orders := db.orders.map OrderRow.fields,
    payments := db.payments.map PaymentRow.fields,
    inventory := db.inventory.map InventoryRow.fields }

/-! ## An example environment and example messages -/

def rawOrderPlaced : Bytes :=
  utf8 ("\x7b\"eventId\":\"e1\",\"type\":\"OrderPlaced\",\"occurredAt\":\"2024-01-01T00:00:00Z\","
    ++ "\"key\":\"O1\",\"payload\":\x7b\"orderId\":\"O1\",\"userId\":\"U1\",\"amount\":10.00\x7d\x7d")

def rawPaymentSettled : Bytes :=
  utf8 ("\x7b\"eventId\":\"e2\",\"type\":\"PaymentSettled\",\"occurredAt\":\"2024-01-01T00:00:00Z\","
    ++ "\"key\":\"O1\",\"payload\":\x7b\"paymentId\":\"P1\",\"orderId\":\"O1\",\"status\":\"settled\","
    ++ "\"amount\":10.00\x7d\x7d")

def rawOrderPlacedFraction : Bytes :=
  utf8 ("\x7b\"eventId\":\"e5\",\"type\":\"OrderPlaced\",\"occurredAt\":\"2024-01-01T00:00:00Z\","
    ++ "\"key\":\"O1\",\"payload\":\x7b\"orderId\":\"O1\",\"userId\":\"U1\",\"amount\":10.005\x7d\x7d")

def rawBadUser : Bytes :=
  utf8 ("\x7b\"eventId\":\"e3\",\"type\":\"UserCreated\",\"occurredAt\":\"2024-01-01T00:00:00Z\","
    ++ "\"key\":\"U1\",\"payload\":\"oops\"\x7d")

def rawSomethingElse : Bytes :=
  utf8 ("\x7b\"eventId\":\"e4\",\"type\":\"SomethingElse\",\"occurredAt\":\"2024-01-01T00:00:00Z\","
    ++ "\"key\":\"k\",\"payload\":\x7b\x7d\x7d")

def rawNotJSON : Bytes := utf8 "not json"

/-- The `float64` that the JSON number `10.00` decodes to: `10`, with the mantissa
normalised to 53 bits. -/
def float64_10_00 : Float64 := { mant := 5629499534213120, exp := -49 }

/-- The `float64` that the JSON number `10.005` decodes to, the nearest one to 10.005:
`5632314283980227 / 2 ^ 49`, a little above 10.005. -/
def float64_10_005 : Float64 := { mant := 5632314283980227, exp := -49 }

/-- The hundredths nearest to the float `x`, a tie going away from zero. -/
def roundHundredths (x : Float64) : Decimal :=
  let n : Int := x.mant * 100 * 2 ^ x.exp.toNat
  let dn : Nat := 2 ^ (-x.exp).toNat
  let q : Nat := (2 * n.natAbs + dn) / (2 * dn)
  if n < 0 then -(q : Int) else (q : Int)

def bitLengthAux : Nat → Nat → Nat
  | 0, _ => 0
  | fuel + 1, n => if n = 0 then 0 else bitLengthAux fuel (n / 2) + 1

/-- Number of binary digits of `n`. -/
def bitLength (n : Nat) : Nat := bitLengthAux n n

/-- The `float64` nearest to `d / 100`, a tie going to the even mantissa, written with
a 53-bit mantissa. Every non-zero value of a `DECIMAL(18,2)` column lies in the range
of the normal numbers. -/
def nearestFloat64 (d : Decimal) : Float64 :=
  let a : Nat := d.natAbs
  if a = 0 then { mant := 0, exp := 0 }
  else
    let L : Nat := bitLength a
    let fl : Int := if 100 * 2 ^ L ≤ a * 128 then (L : Int) - 7 else (L : Int) - 8
    let e : Int := fl - 52
    let N : Nat := a * 2 ^ (-e).toNat
    let D : Nat := 100 * 2 ^ e.toNat
    let qt : Nat := N / D
    let r : Nat := N % D
    let m : Nat := if D < 2 * r || (2 * r == D && qt % 2 == 1) then qt + 1 else qt
    let m1 : Nat := if m = 9007199254740992 then 4503599627370496 else m
    let e1 : Int := if m = 9007199254740992 then e + 1 else e
    { mant := if d < 0 then -(m1 : Int) else (m1 : Int), exp := e1 }

/-- An environment in which no database or Redis call fails, both clocks count their
readings, no environment variable is set, and `json.Unmarshal` is given on the five
well-formed example messages above; every other input is reported as a decode error.
Strings are quoted as the encoder quotes texts without special characters. A `float64`
written to a `DECIMAL(18,2)` column is rounded to the nearest hundredth, and a column
value is read back as the nearest `float64`. -/
def exampleEnv : Env where
  dbFault := fun _ => none
  dbNow := fun n => n
  redisFault := fun _ => none
  clock := fun n => n
  getenv := fun _ => ""
  unmarshalEnvelope := fun raw =>
    if raw = rawOrderPlaced then
      .ok { EventID := "e1", Type_ := "OrderPlaced", OccurredAt := 0, Key := "O1",
            Payload := utf8 "\x7b\"orderId\":\"O1\",\"userId\":\"U1\",\"amount\":10.00\x7d" }
    else if raw = rawPaymentSettled then
      .ok { EventID := "e2", Type_ := "PaymentSettled", OccurredAt := 0, Key := "O1",
            Payload := utf8 ("\x7b\"paymentId\":\"P1\",\"orderId\":\"O1\",\"status\":\"settled\","
              ++ "\"amount\":10.00\x7d") }
    else if raw = rawOrderPlacedFraction then
      .ok { EventID := "e5", Type_ := "OrderPlaced", OccurredAt := 0, Key := "O1",
            Payload := utf8 "\x7b\"orderId\":\"O1\",\"userId\":\"U1\",\"amount\":10.005\x7d" }
    else if raw = rawBadUser then
      .ok { EventID := "e3", Type_ := "UserCreated", OccurredAt := 0, Key := "U1",
            Payload := utf8 "\"oops\"" }
    else if raw = rawSomethingElse then
      .ok { EventID := "e4", Type_ := "SomethingElse", OccurredAt := 0, Key := "k",
            Payload := utf8 "\x7b\x7d" }
    else .error "invalid character 'o' in literal null (expecting 'u')"
  unmarshalUserCreated := fun _ =>
    .error "json: cannot unmarshal string into Go value of type models.UserCreated"
  unmarshalOrderPlaced := fun raw =>
    if raw = utf8 "\x7b\"orderId\":\"O1\",\"userId\":\"U1\",\"amount\":10.00\x7d" then
      .ok { OrderID := "O1", UserID := "U1", Amount := float64_10_00 }
    else if raw = utf8 "\x7b\"orderId\":\"O1\",\"userId\":\"U1\",\"amount\":10.005\x7d" then
      .ok { OrderID := "O1", UserID := "U1", Amount := float64_10_005 }
    else .error "unexpected end of JSON input"
  unmarshalPaymentSettled := fun raw =>
    if raw = utf8 ("\x7b\"paymentId\":\"P1\",\"orderId\":\"O1\",\"status\":\"settled\","
        ++ "\"amount\":10.00\x7d") then
      .ok { PaymentID := "P1", OrderID := "O1", Status := "settled", Amount := float64_10_00 }
    else .error "unexpected end of JSON input"
  unmarshalInventoryAdjusted := fun _ => .error "unexpected end of JSON input"
  marshalTime := fun _ => utf8 "\"2024-01-01T00:00:00Z\""
  marshalString := fun s => utf8 ("\"" ++ s ++ "\"")
  toDecimal := fun x => .ok (roundHundredths x)
  scanFloat64 := nearestFloat64

/-- A message with the value `raw`. -/
def exampleMessage (raw : Bytes) (offset : Int) : ConsumerMessage :=
  { Key := none, Value := some raw, Topic := "events", Partition := 0, Offset := offset }

/-- What one run of the handler did between the worlds `w` and `w1`, having made the
calls `cs`: either nothing failed, the processed-event counter went up by one and there
was no dead-letter push; or something failed with `err`, the counter is unchanged and
there was exactly one dead-letter push, of the message value with `err`. -/
def RunOutcome (E : Env) (m : ConsumerMessage) (w w1 : World) (cs : List Call) : Prop :=
  w1.calls = w.calls ++ cs ∧ w1.marked = w.marked ∧
    ((failingError E m cs = none ∧ w1.Processed = w.Processed + 1
        ∧ cs.filter Call.isPush = [])
      ∨ (∃ err, failingError E m cs = some err ∧ w1.Processed = w.Processed
        ∧ cs.filter Call.isPush = [.Push (E.getenv "DLQ_LIST") m.Value err]))

deriving instance DecidableEq for Except

/-- One call of an upsert operation of the storage layer, with its arguments. -/
inductive UpsertCall
  | User (id name email : String)
  | Order (id userID : String) (amount : Float64)
  | Payment (id orderID status : String) (amount : Float64)
  | Inventory (sku : String) (delta : Int)
  deriving DecidableEq, Repr

/-- Make the call. -/
def UpsertCall.run (E : Env) (w : World) : UpsertCall → World × Option String
  | .User id name email => UpsertUser E w id name email
  | .Order id userID amount => UpsertOrder E w id userID amount
  | .Payment id orderID status amount => UpsertPayment E w id orderID status amount
  | .Inventory sku delta => UpsertInventory E w sku delta

/-- The calls whose statement adds to the stored value instead of replacing it:
`UpsertInventory` with a delta other than zero. -/
def UpsertCall.additive : UpsertCall → Bool
  | .Inventory _ delta => decide (delta ≠ 0)
  | _ => false

/-! ## cmd/producer/main.go: the tick interval -/

/-- Function `strconv.Atoi` on a 64-bit platform: an optional sign followed by one or
more decimal digits, whose value fits an `int`; `none` stands for a non-nil error
(syntax or range). -/
def Atoi (s : String) : Option Int :=
  let cs := s.toList
  let neg : Bool := cs.head? == some '-'
  let ds : List Char := if cs.head? == some '-' || cs.head? == some '+' then cs.tail else cs
  if ds.isEmpty then none
  else if ds.all Char.isDigit then
    let n : Nat := ds.foldl (fun n ch => n * 10 + (ch.toNat - 48)) 0
    let v : Int := if neg then -(n : Int) else (n : Int)
    if -9223372036854775808 ≤ v ∧ v ≤ 9223372036854775807 then some v else none
  else none

/-- The constant `time.Second`, in nanoseconds. -/
def Second : Int := 1000000000

/-- The statements `rate := 5; if v := os.Getenv("EVENT_RATE"); v != "" { if n, err :=
strconv.Atoi(v); err == nil { rate = n } }` of the producer's `main`. -/
def eventRate (E : Env) : Int :=
  let v := E.getenv "EVENT_RATE"
  if v ≠ "" then
    match Atoi v with
    | some n => n
    | none => 5
  else 5

/-- The expression `time.Second / time.Duration(rate)`: integer division truncating
towards zero; a zero divisor is a run-time panic, reported as `Except.error`. -/
def tickInterval (rate : Int) : Except String Int :=
  if rate = 0 then .error "runtime error: integer divide by zero"
  else .ok (Int.tdiv Second rate)

/-- Function `time.NewTicker(d)`: panics when `d <= 0`; otherwise a ticker of period `d`. -/
def NewTicker (d : Int) : Except String Int :=
  if d ≤ 0 then .error "non-positive interval for NewTicker" else .ok d

/-- The statement `ticker := time.NewTicker(time.Second / time.Duration(rate))` after the
rate was read: the period of the ticker, or the panic that ends the process. -/
def producerTicker (E : Env) : Except String Int :=
  match tickInterval (eventRate E) with
  | .error e => .error e
  | .ok d => NewTicker d

/-- The example environment with the variable `EVENT_RATE` set to `v`. -/
def envWithRate (v : String) : Env :=
  { exampleEnv with getenv := fun k => if k = "EVENT_RATE" then v else "" }

/-! # Theorems -/

/-! ## Frame lemmas -/

theorem Push_calls (E : Env) (w : World) (k : String) (p : ByteSlice) (e : String) :
    (Push E w k p e).calls = w.calls ++ [.Push k p e] := by
  simp only [Push, LPush, timeNow]
  cases h : E.redisFault w.redisCalls <;> simp

theorem Push_frame (E : Env) (w : World) (k : String) (p : ByteSlice) (e : String) :
    (Push E w k p e).Processed = w.Processed ∧ (Push E w k p e).marked = w.marked
      ∧ (Push E w k p e).db = w.db ∧ (Push E w k p e).dbCalls = w.dbCalls := by
  simp only [Push, LPush, timeNow]
  cases h : E.redisFault w.redisCalls <;> simp

theorem ExecContext_frame (E : Env) (w : World) (stmt : Time → Store → Except String Store) :
    (ExecContext E w stmt).1.calls = w.calls
      ∧ (ExecContext E w stmt).1.Processed = w.Processed
      ∧ (ExecContext E w stmt).1.marked = w.marked
      ∧ (ExecContext E w stmt).1.redis = w.redis
      ∧ (ExecContext E w stmt).1.DLQCount = w.DLQCount
      ∧ (ExecContext E w stmt).1.dbCalls = w.dbCalls + 1 := by
  simp only [ExecContext]
  cases h : E.dbFault w.dbCalls
  · cases h2 : stmt (E.dbNow w.dbCalls) w.db <;> simp [h2]
  · simp


theorem UpsertUser_frame (E : Env) (w : World) (a b c : String) :
    (UpsertUser E w a b c).1.calls = w.calls ++ [.UpsertUser a b c (UpsertUser E w a b c).2]
      ∧ (UpsertUser E w a b c).1.Processed = w.Processed
      ∧ (UpsertUser E w a b c).1.marked = w.marked := by
  have h := ExecContext_frame E w (stmtUpsertUser a b c)
  simp only [UpsertUser]
  exact ⟨by simp [h.1], h.2.1, h.2.2.1⟩

theorem UpsertOrder_frame (E : Env) (w : World) (a b : String) (c : Float64) :
    (UpsertOrder E w a b c).1.calls = w.calls ++ [.UpsertOrder a b c (UpsertOrder E w a b c).2]
      ∧ (UpsertOrder E w a b c).1.Processed = w.Processed
      ∧ (UpsertOrder E w a b c).1.marked = w.marked := by
  have h := ExecContext_frame E w (stmtUpsertOrder E a b c)
  simp only [UpsertOrder]
  exact ⟨by simp [h.1], h.2.1, h.2.2.1⟩

theorem UpsertPayment_frame (E : Env) (w : World) (a b c : String) (d : Float64) :
    (UpsertPayment E w a b c d).1.calls
        = w.calls ++ [.UpsertPayment a b c d (UpsertPayment E w a b c d).2]
      ∧ (UpsertPayment E w a b c d).1.Processed = w.Processed
      ∧ (UpsertPayment E w a b c d).1.marked = w.marked := by
  have h := ExecContext_frame E w (stmtUpsertPayment E a b c d)
  simp only [UpsertPayment]
  exact ⟨by simp [h.1], h.2.1, h.2.2.1⟩

theorem UpsertInventory_frame (E : Env) (w : World) (a : String) (d : Int) :
    (UpsertInventory E w a d).1.calls
        = w.calls ++ [.UpsertInventory a d (UpsertInventory E w a d).2]
      ∧ (UpsertInventory E w a d).1.Processed = w.Processed
      ∧ (UpsertInventory E w a d).1.marked = w.marked := by
  have h := ExecContext_frame E w (stmtUpsertInventory a d)
  simp only [UpsertInventory]
  exact ⟨by simp [h.1], h.2.1, h.2.2.1⟩

theorem types_distinct :
    TypeOrderPlaced ≠ TypeUserCreated ∧ TypePaymentSettled ≠ TypeUserCreated
      ∧ TypePaymentSettled ≠ TypeOrderPlaced ∧ TypeInventoryAdjusted ≠ TypeUserCreated
      ∧ TypeInventoryAdjusted ≠ TypeOrderPlaced ∧ TypeInventoryAdjusted ≠ TypePaymentSettled := by
  decide

theorem handleBody_outcome (E : Env) (w : World) (m : ConsumerMessage) :
    (handleBody E w m).2 = none ∧ ∃ cs, RunOutcome E m w (handleBody E w m).1 cs := by
  unfold handleBody RunOutcome
  cases henv : E.unmarshalEnvelope m.Value.bytes with
  | error err =>
    refine ⟨rfl, [.Push (E.getenv "DLQ_LIST") m.Value err], ?_⟩
    simp [deadLetter, Push_calls, Push_frame, types_distinct, failingError, decodeError, henv,
      Call.isPush]
  | ok env =>
    simp only []
    by_cases h1 : env.Type_ = TypeUserCreated
    · simp only [h1, if_true]
      cases hp : E.unmarshalUserCreated env.Payload with
      | error err =>
        refine ⟨rfl, [.Push (E.getenv "DLQ_LIST") m.Value err], ?_⟩
        simp [failingError, decodeError, henv, Call.isPush, payloadError, hp, Call.failure,
          deadLetter, processed, Push_calls, Push_frame, types_distinct, h1]
      | ok e =>
        have hf := UpsertUser_frame E w e.UserID e.Name e.Email
        rcases hu : UpsertUser E w e.UserID e.Name e.Email with ⟨w1, _ | err⟩
        · rw [hu] at hf
          obtain ⟨hc, hP, hm⟩ := hf
          simp only [] at hc hP hm
          simp only [hu]
          refine ⟨rfl, [.UpsertUser e.UserID e.Name e.Email none], ?_⟩
          simp [failingError, decodeError, henv, Call.isPush, payloadError, hp, Call.failure,
            deadLetter, processed, Push_calls, Push_frame, types_distinct, h1, hc, hP, hm]
        · rw [hu] at hf
          obtain ⟨hc, hP, hm⟩ := hf
          simp only [] at hc hP hm
          simp only [hu]
          refine ⟨rfl, [.UpsertUser e.UserID e.Name e.Email (some err),
            .Push (E.getenv "DLQ_LIST") m.Value err], ?_⟩
          simp [failingError, decodeError, henv, Call.isPush, payloadError, hp, Call.failure,
            deadLetter, processed, Push_calls, Push_frame, types_distinct, h1, hc, hP, hm]
    by_cases h2 : env.Type_ = TypeOrderPlaced
    · simp only [h1, h2, if_true, if_false]
      cases hp : E.unmarshalOrderPlaced env.Payload with
      | error err =>
        refine ⟨rfl, [.Push (E.getenv "DLQ_LIST") m.Value err], ?_⟩
        simp [failingError, decodeError, henv, Call.isPush, payloadError, hp, Call.failure,
          deadLetter, processed, Push_calls, Push_frame, types_distinct, h1, h2]
      | ok e =>
        have hf := UpsertOrder_frame E w e.OrderID e.UserID e.Amount
        rcases hu : UpsertOrder E w e.OrderID e.UserID e.Amount with ⟨w1, _ | err⟩
        · rw [hu] at hf
          obtain ⟨hc, hP, hm⟩ := hf
          simp only [] at hc hP hm
          simp only [hu]
          have hf2 := UpsertPayment_frame E w1 e.OrderID e.OrderID "pending" e.Amount
          rcases hu2 : UpsertPayment E w1 e.OrderID e.OrderID "pending" e.Amount with ⟨w2, _ | err⟩
          · rw [hu2] at hf2
            obtain ⟨hc2, hP2, hm2⟩ := hf2
            simp only [] at hc2 hP2 hm2
            refine ⟨rfl, [.UpsertOrder e.OrderID e.UserID e.Amount none,
              .UpsertPayment e.OrderID e.OrderID "pending" e.Amount none], ?_⟩
            simp [failingError, decodeError, henv, Call.isPush, payloadError, hp, Call.failure,
              deadLetter, processed, Push_calls, Push_frame, types_distinct, h1, h2, hc, hP, hm,
              hc2, hP2, hm2]
          · rw [hu2] at hf2
            obtain ⟨hc2, hP2, hm2⟩ := hf2
            simp only [] at hc2 hP2 hm2
            refine ⟨rfl, [.UpsertOrder e.OrderID e.UserID e.Amount none,
              .UpsertPayment e.OrderID e.OrderID "pending" e.Amount (some err),
              .Push (E.getenv "DLQ_LIST") m.Value err], ?_⟩
            simp [failingError, decodeError, henv, Call.isPush, payloadError, hp, Call.failure,
              deadLetter, processed, Push_calls, Push_frame, types_distinct, h1, h2, hc, hP, hm,
              hc2, hP2, hm2]
        · rw [hu] at hf
          obtain ⟨hc, hP, hm⟩ := hf
          simp only [] at hc hP hm
          simp only [hu]
          refine ⟨rfl, [.UpsertOrder e.OrderID e.UserID e.Amount (some err),
            .Push (E.getenv "DLQ_LIST") m.Value err], ?_⟩
          simp [failingError, decodeError, henv, Call.isPush, payloadError, hp, Call.failure,
            deadLetter, processed, Push_calls, Push_frame, types_distinct, h1, h2, hc, hP, hm]
    by_cases h3 : env.Type_ = TypePaymentSettled
    · simp only [h1, h2, h3, if_true, if_false]
      cases hp : E.unmarshalPaymentSettled env.Payload with
      | error err =>
        refine ⟨rfl, [.Push (E.getenv "DLQ_LIST") m.Value err], ?_⟩
        simp [failingError, decodeError, henv, Call.isPush, payloadError, hp, Call.failure,
          deadLetter, processed, Push_calls, Push_frame, types_distinct, h1, h2, h3]
      | ok e =>
        have hf := UpsertPayment_frame E w e.PaymentID e.OrderID e.Status e.Amount
        rcases hu : UpsertPayment E w e.PaymentID e.OrderID e.Status e.Amount with ⟨w1, _ | err⟩
        · rw [hu] at hf
          obtain ⟨hc, hP, hm⟩ := hf
          simp only [] at hc hP hm
          simp only [hu]
          refine ⟨rfl, [.UpsertPayment e.PaymentID e.OrderID e.Status e.Amount none], ?_⟩
          simp [failingError, decodeError, henv, Call.isPush, payloadError, hp, Call.failure,
            deadLetter, processed, Push_calls, Push_frame, types_distinct, h1, h2, h3, hc, hP, hm]
        · rw [hu] at hf
          obtain ⟨hc, hP, hm⟩ := hf
          simp only [] at hc hP hm
          simp only [hu]
          refine ⟨rfl, [.UpsertPayment e.PaymentID e.OrderID e.Status e.Amount (some err),
            .Push (E.getenv "DLQ_LIST") m.Value err], ?_⟩
          simp [failingError, decodeError, henv, Call.isPush, payloadError, hp, Call.failure,
            deadLetter, processed, Push_calls, Push_frame, types_distinct, h1, h2, h3, hc, hP, hm]
    by_cases h4 : env.Type_ = TypeInventoryAdjusted
    · simp only [h1, h2, h3, h4, if_true, if_false]
      cases hp : E.unmarshalInventoryAdjusted env.Payload with
      | error err =>
        refine ⟨rfl, [.Push (E.getenv "DLQ_LIST") m.Value err], ?_⟩
        simp [failingError, decodeError, henv, Call.isPush, payloadError, hp, Call.failure,
          deadLetter, processed, Push_calls, Push_frame, types_distinct, h1, h2, h3, h4]
      | ok e =>
        have hf := UpsertInventory_frame E w e.SKU e.Delta
        rcases hu : UpsertInventory E w e.SKU e.Delta with ⟨w1, _ | err⟩
        · rw [hu] at hf
          obtain ⟨hc, hP, hm⟩ := hf
          simp only [] at hc hP hm
          simp only [hu]
          refine ⟨rfl, [.UpsertInventory e.SKU e.Delta none], ?_⟩
          simp [failingError, decodeError, henv, Call.isPush, payloadError, hp, Call.failure,
            deadLetter, processed, Push_calls, Push_frame, types_distinct, h1, h2, h3, h4, hc, hP,
            hm]
        · rw [hu] at hf
          obtain ⟨hc, hP, hm⟩ := hf
          simp only [] at hc hP hm
          simp only [hu]
          refine ⟨rfl, [.UpsertInventory e.SKU e.Delta (some err),
            .Push (E.getenv "DLQ_LIST") m.Value err], ?_⟩
          simp [failingError, decodeError, henv, Call.isPush, payloadError, hp, Call.failure,
            deadLetter, processed, Push_calls, Push_frame, types_distinct, h1, h2, h3, h4, hc, hP,
            hm]
    · simp only [h1, h2, h3, h4, if_false]
      refine ⟨rfl, [], ?_⟩
      simp [failingError, decodeError, henv, payloadError, h1, h2, h3, h4, processed]

theorem Handle_proj (E : Env) (w : World) (m : ConsumerMessage) :
    (Handle E w m).2 = (handleBody E (timeNow E w).2 m).2
      ∧ (Handle E w m).1.calls = (handleBody E (timeNow E w).2 m).1.calls
      ∧ (Handle E w m).1.marked = (handleBody E (timeNow E w).2 m).1.marked
      ∧ (Handle E w m).1.Processed = (handleBody E (timeNow E w).2 m).1.Processed
      ∧ (Handle E w m).1.db = (handleBody E (timeNow E w).2 m).1.db
      ∧ (Handle E w m).1.dbCalls = (handleBody E (timeNow E w).2 m).1.dbCalls
      ∧ (Handle E w m).1.redis = (handleBody E (timeNow E w).2 m).1.redis
      ∧ (Handle E w m).1.DLQCount = (handleBody E (timeNow E w).2 m).1.DLQCount := by
  simp [Handle, timeNow]

theorem handleBody_of_decodeError (E : Env) (w : World) (m : ConsumerMessage) (err : String)
    (h : decodeError E m = some err) : handleBody E w m = deadLetter E w m err := by
  unfold decodeError at h
  unfold handleBody
  cases henv : E.unmarshalEnvelope m.Value.bytes with
  | error e => simp [henv] at h; simp [h]
  | ok env =>
    simp only [henv] at h
    unfold payloadError at h
    simp only []
    by_cases h1 : env.Type_ = TypeUserCreated
    · simp only [h1, if_true] at h ⊢
      cases hp : E.unmarshalUserCreated env.Payload <;> simp_all
    by_cases h2 : env.Type_ = TypeOrderPlaced
    · simp only [h1, h2, if_true, if_false] at h ⊢
      cases hp : E.unmarshalOrderPlaced env.Payload <;> simp_all
    by_cases h3 : env.Type_ = TypePaymentSettled
    · simp only [h1, h2, h3, if_true, if_false] at h ⊢
      cases hp : E.unmarshalPaymentSettled env.Payload <;> simp_all
    by_cases h4 : env.Type_ = TypeInventoryAdjusted
    · simp only [h1, h2, h3, h4, if_true, if_false] at h ⊢
      cases hp : E.unmarshalInventoryAdjusted env.Payload <;> simp_all
    · simp [h1, h2, h3, h4] at h

theorem handleBody_of_unknown (E : Env) (w : World) (m : ConsumerMessage) (env : Envelope)
    (henv : E.unmarshalEnvelope m.Value.bytes = .ok env) (hty : env.Type_ ∉ knownTypes) :
    handleBody E w m = processed w := by
  simp only [knownTypes, List.mem_cons, List.mem_singleton, not_or, List.mem_nil_iff,
    or_false] at hty
  obtain ⟨h1, h2, h3, h4⟩ := hty
  unfold handleBody
  simp [henv, h1, h2, h3, h4]

/-- C1. Whatever the messages of a claim and whatever storage, Redis and the decoders
do, the consumer's handler returns no error on every message, so `ConsumeClaim` marks
each delivered message exactly once, in delivery order, and itself returns `nil`. -/
theorem consumeClaim_marks_every_message (E : Env) (w : World) (msgs : List ConsumerMessage) :
    (∀ (w0 : World) (m : ConsumerMessage), (Handle E w0 m).2 = none)
      ∧ (ConsumeClaim (Handle E) w msgs).1.marked = w.marked ++ msgs
      ∧ (ConsumeClaim (Handle E) w msgs).2 = none := by
  have hnone : ∀ (w0 : World) (m : ConsumerMessage), (Handle E w0 m).2 = none := by
    intro w0 m
    rw [(Handle_proj E w0 m).1]
    exact (handleBody_outcome E _ m).1
  have hmark : ∀ (w0 : World) (m : ConsumerMessage), (Handle E w0 m).1.marked = w0.marked := by
    intro w0 m
    rw [(Handle_proj E w0 m).2.2.1]
    obtain ⟨cs, hcs⟩ := (handleBody_outcome E (timeNow E w0).2 m).2
    rw [hcs.2.1]
    rfl
  refine ⟨hnone, ?_⟩
  induction msgs generalizing w with
  | nil => simp [ConsumeClaim]
  | cons m rest ih =>
    have h1 := hnone w m
    have h2 := hmark w m
    rcases hh : Handle E w m with ⟨w1, r⟩
    rw [hh] at h1 h2
    simp only [] at h1 h2
    subst h1
    simp only [ConsumeClaim, hh, h2]
    have := ih { w1 with marked := w.marked ++ [m] }
    simpa using this

/-- C2. One run of the handler, for any message, decoders and storage behaviour, has
exactly one of two outcomes. If nothing failed (`failingError` is `none`: envelope
and payload decoded and no attempted upsert returned an error) the processed-event
counter goes up by exactly one and `dlq.Push` is not called. If something failed with
`err`, `dlq.Push` is called exactly once, with the `DLQ_LIST` key, the message's
original value and `err`, and the counter is unchanged. -/
theorem handle_two_outcomes (E : Env) (w : World) (m : ConsumerMessage) :
    ∃ cs : List Call, (Handle E w m).1.calls = w.calls ++ cs ∧
      ((failingError E m cs = none ∧ (Handle E w m).1.Processed = w.Processed + 1
          ∧ cs.filter Call.isPush = [])
        ∨ (∃ err, failingError E m cs = some err ∧ (Handle E w m).1.Processed = w.Processed
          ∧ cs.filter Call.isPush = [.Push (E.getenv "DLQ_LIST") m.Value err])) := by
  obtain ⟨cs, hc, _, h⟩ := (handleBody_outcome E (timeNow E w).2 m).2
  have hp := Handle_proj E w m
  refine ⟨cs, ?_, ?_⟩
  · rw [hp.2.1, hc]; rfl
  · rw [hp.2.2.2.1]
    exact h

/-- C3. When the message fails to decode as an envelope, or its envelope has one of the
four known types and its payload fails to decode into that type's structure
(`decodeError` is `some err`), the handler makes exactly one call, a dead-letter push of
the original message value with `err`; it sends no statement to the database and leaves
the tables as they were; the processed-event counter is unchanged; it returns no error. -/
theorem handle_decode_failure (E : Env) (w : World) (m : ConsumerMessage) (err : String)
    (h : decodeError E m = some err) :
    (Handle E w m).2 = none
      ∧ (Handle E w m).1.calls = w.calls ++ [.Push (E.getenv "DLQ_LIST") m.Value err]
      ∧ (Handle E w m).1.db = w.db
      ∧ (Handle E w m).1.dbCalls = w.dbCalls
      ∧ (Handle E w m).1.Processed = w.Processed := by
  have hp := Handle_proj E w m
  have hb := handleBody_of_decodeError E (timeNow E w).2 m err h
  rw [hb] at hp
  obtain ⟨h1, h2, _, h4, h5, h6, _⟩ := hp
  have hf := Push_frame E (timeNow E w).2 (E.getenv "DLQ_LIST") m.Value err
  refine ⟨?_, ?_, ?_, ?_, ?_⟩
  · rw [h1]; rfl
  · rw [h2]; simp [deadLetter, Push_calls, timeNow]
  · rw [h5]; exact hf.2.2.1
  · rw [h6]; exact hf.2.2.2
  · rw [h4]; exact hf.1

theorem handle_decode_failure_witness :
    decodeError exampleEnv (exampleMessage rawBadUser 0)
        = some "json: cannot unmarshal string into Go value of type models.UserCreated"
      ∧ (Handle exampleEnv World.init (exampleMessage rawBadUser 0)).2 = none
      ∧ (Handle exampleEnv World.init (exampleMessage rawBadUser 0)).1.calls
          = [.Push "" (some rawBadUser)
              "json: cannot unmarshal string into Go value of type models.UserCreated"]
      ∧ (Handle exampleEnv World.init (exampleMessage rawBadUser 0)).1.db = Store.empty
      ∧ (Handle exampleEnv World.init (exampleMessage rawBadUser 0)).1.dbCalls = 0
      ∧ (Handle exampleEnv World.init (exampleMessage rawBadUser 0)).1.Processed = 0 :=
  ⟨by decide,
   handle_decode_failure exampleEnv World.init (exampleMessage rawBadUser 0) _ (by decide)⟩

/-- C4. When the message decodes as an envelope whose type is none of `UserCreated`,
`OrderPlaced`, `PaymentSettled`, `InventoryAdjusted`, whatever its payload, the handler
makes no dead-letter push and no storage call (no call at all, no statement sent, tables
and Redis lists unchanged, dead-letter counter unchanged), increments the processed-event
counter by exactly one, and returns no error. -/
theorem handle_unknown_type (E : Env) (w : World) (m : ConsumerMessage) (env : Envelope)
    (henv : E.unmarshalEnvelope m.Value.bytes = .ok env) (hty : env.Type_ ∉ knownTypes) :
    (Handle E w m).2 = none
      ∧ (Handle E w m).1.calls = w.calls
      ∧ (Handle E w m).1.db = w.db
      ∧ (Handle E w m).1.dbCalls = w.dbCalls
      ∧ (Handle E w m).1.redis = w.redis
      ∧ (Handle E w m).1.DLQCount = w.DLQCount
      ∧ (Handle E w m).1.Processed = w.Processed + 1 := by
  have hp := Handle_proj E w m
  rw [handleBody_of_unknown E (timeNow E w).2 m env henv hty] at hp
  obtain ⟨h1, h2, _, h4, h5, h6, h7, h8⟩ := hp
  exact ⟨h1, h2, h5, h6, h7, h8, h4⟩

theorem handle_unknown_type_witness :
    (Handle exampleEnv World.init (exampleMessage rawSomethingElse 0)).2 = none
      ∧ (Handle exampleEnv World.init (exampleMessage rawSomethingElse 0)).1.calls = []
      ∧ (Handle exampleEnv World.init (exampleMessage rawSomethingElse 0)).1.db = Store.empty
      ∧ (Handle exampleEnv World.init (exampleMessage rawSomethingElse 0)).1.dbCalls = 0
      ∧ (Handle exampleEnv World.init (exampleMessage rawSomethingElse 0)).1.redis = []
      ∧ (Handle exampleEnv World.init (exampleMessage rawSomethingElse 0)).1.DLQCount = 0
      ∧ (Handle exampleEnv World.init (exampleMessage rawSomethingElse 0)).1.Processed = 0 + 1 :=
  handle_unknown_type exampleEnv World.init (exampleMessage rawSomethingElse 0)
    { EventID := "e4", Type_ := "SomethingElse", OccurredAt := 0, Key := "k",
      Payload := utf8 "\x7b\x7d" } (by rfl) (by decide)

/-! ## The `MERGE` statement -/

theorem ExecContext_ok (E : Env) (w : World) (stmt : Time → Store → Except String Store)
    (h : (ExecContext E w stmt).2 = none) :
    stmt (E.dbNow w.dbCalls) w.db = .ok (ExecContext E w stmt).1.db := by
  simp only [ExecContext] at h ⊢
  cases hf : E.dbFault w.dbCalls with
  | some e => simp [hf] at h
  | none =>
    cases hs : stmt (E.dbNow w.dbCalls) w.db with
    | error e => simp [hf, hs] at h
    | ok db => simp

theorem ExecContext_err (E : Env) (w : World) (stmt : Time → Store → Except String Store)
    (e : String) (h : (ExecContext E w stmt).2 = some e) :
    (ExecContext E w stmt).1.db = w.db := by
  simp only [ExecContext] at h ⊢
  cases hf : E.dbFault w.dbCalls with
  | some e => simp
  | none =>
    cases hs : stmt (E.dbNow w.dbCalls) w.db with
    | error e => simp
    | ok db => simp [hf, hs] at h


theorem UpsertUser_db (E : Env) (w : World) (a b c : String)
    (h : (UpsertUser E w a b c).2 = none) :
    (UpsertUser E w a b c).1.db
      = { w.db with users := mergeUsers (E.dbNow w.dbCalls) a b c w.db.users } := by
  have := ExecContext_ok E w (stmtUpsertUser a b c) (by simpa [UpsertUser] using h)
  simp only [stmtUpsertUser, Except.ok.injEq] at this
  simp only [UpsertUser]
  exact this.symm

theorem UpsertOrder_db (E : Env) (w : World) (a b : String) (c : Float64)
    (h : (UpsertOrder E w a b c).2 = none) :
    ∃ d : Decimal, E.toDecimal c = .ok d ∧ (UpsertOrder E w a b c).1.db
      = { w.db with orders := mergeOrders (E.dbNow w.dbCalls) a b d w.db.orders } := by
  have := ExecContext_ok E w (stmtUpsertOrder E a b c) (by simpa [UpsertOrder] using h)
  simp only [stmtUpsertOrder] at this
  cases hd : E.toDecimal c with
  | error e => simp [hd] at this
  | ok d =>
    simp only [hd] at this
    split at this
    · simp only [Except.ok.injEq] at this
      simp only [UpsertOrder]
      exact ⟨d, rfl, this.symm⟩
    · cases this

theorem UpsertPayment_db (E : Env) (w : World) (a b c : String) (x : Float64)
    (h : (UpsertPayment E w a b c x).2 = none) :
    ∃ d : Decimal, E.toDecimal x = .ok d ∧ (UpsertPayment E w a b c x).1.db
      = { w.db with payments := mergePayments (E.dbNow w.dbCalls) a b c d w.db.payments } := by
  have := ExecContext_ok E w (stmtUpsertPayment E a b c x) (by simpa [UpsertPayment] using h)
  simp only [stmtUpsertPayment] at this
  cases hd : E.toDecimal x with
  | error e => simp [hd] at this
  | ok d =>
    simp only [hd] at this
    split at this
    · simp only [Except.ok.injEq] at this
      simp only [UpsertPayment]
      exact ⟨d, rfl, this.symm⟩
    · cases this

theorem UpsertInventory_db (E : Env) (w : World) (a : String) (d : Int)
    (h : (UpsertInventory E w a d).2 = none) :
    (UpsertInventory E w a d).1.db
        = { w.db with inventory := mergeInventory (E.dbNow w.dbCalls) a d w.db.inventory }
      ∧ ∀ r ∈ mergeInventory (E.dbNow w.dbCalls) a d w.db.inventory,
          r.sku = a → inInt32 r.qty = true := by
  have := ExecContext_ok E w (stmtUpsertInventory a d) (by simpa [UpsertInventory] using h)
  simp only [stmtUpsertInventory] at this
  split at this
  · rename_i hall
    simp only [Except.ok.injEq] at this
    simp only [UpsertInventory]
    refine ⟨this.symm, ?_⟩
    intro r hr hk
    have := List.all_eq_true.mp hall r hr
    simpa [hk] using this
  · cases this

/-- C6 (evaluation at the failing input). From the empty store, process the
`OrderPlaced` event for order `O1` (user `U1`, amount 10.00), then the `PaymentSettled`
event with payment id `P1`, order id `O1` and status `settled`; no call fails. The
payments table then has two rows of order id `O1`, the pending one keyed `O1` and the
settled one keyed `P1`, and `GetOrderWithPayment("O1")` may return either status:
`pending` is among its possible results. -/
theorem getOrderWithPayment_after_settlement :
    ((GetOrderWithPayment exampleEnv
        (Handle exampleEnv (Handle exampleEnv World.init (exampleMessage rawOrderPlaced 0)).1
          (exampleMessage rawPaymentSettled 1)).1 "O1").map Prod.snd
      = [.ok { OrderID := "O1", UserID := "U1", Amount := float64_10_00,
               PaymentStatus := "pending" },
         .ok { OrderID := "O1", UserID := "U1", Amount := float64_10_00,
               PaymentStatus := "settled" }])
      ∧ (Handle exampleEnv (Handle exampleEnv World.init (exampleMessage rawOrderPlaced 0)).1
          (exampleMessage rawPaymentSettled 1)).1.db.payments.map PaymentRow.fields
        = [("O1", "O1", "pending", 1000), ("P1", "O1", "settled", 1000)] := by
  decide

theorem lrange_map_push (lists : List (String × List Bytes)) (key : String) (v : Bytes)
    (h : lists.any (fun kv => kv.1 == key) = true) :
    lrange (lists.map (fun kv => if kv.1 == key then (kv.1, v :: kv.2) else kv)) key
      = v :: lrange lists key := by
  induction lists with
  | nil => simp at h
  | cons kv rest ih =>
    by_cases hk : kv.1 = key
    · simp [lrange, List.find?, hk]
    · have hrest : rest.any (fun kv => kv.1 == key) = true := by
        simpa [hk] using h
      have ih := ih hrest
      have hb : (kv.1 == key) = false := by simpa using hk
      simp only [lrange, List.map_cons, List.find?, hb, Bool.false_eq_true, if_false] at ih ⊢
      exact ih

theorem lrange_lpush (lists : List (String × List Bytes)) (key : String) (v : Bytes) :
    lrange (lpush lists key v) key = v :: lrange lists key := by
  unfold lpush
  by_cases h : lists.any (fun kv => kv.1 == key) = true
  · rw [if_pos h]
    exact lrange_map_push lists key v h
  · rw [if_neg h]
    have hnone : lists.find? (fun kv => kv.1 == key) = none := by
      rw [List.find?_eq_none]
      intro x hx hxk
      exact h (List.any_eq_true.mpr ⟨x, hx, hxk⟩)
    simp [lrange, List.find?_append, hnone]

/-- C7 (evaluation at the failing input). For the payload `not json`, every error text,
key and world: `Marshal` fails, its error is dropped, and when the Redis command
succeeds `Push` puts the empty byte string at the head of the list; the pushed record
holds neither the error text nor the payload, and the dead-letter counter still goes up. -/
theorem push_invalid_json_pushes_empty (E : Env) (w : World) (key err : String)
    (hr : E.redisFault w.redisCalls = none) :
    lrange (Push E w key (some rawNotJSON) err).redis (if key = "" then "dlq" else key)
        = [] :: lrange w.redis (if key = "" then "dlq" else key)
      ∧ (Push E w key (some rawNotJSON) err).DLQCount = w.DLQCount + 1 := by
  have hm : appendCompact rawNotJSON = none := by decide
  simp [Push, LPush, timeNow, Marshal, RawMessage.MarshalJSON, hm, hr, lrange_lpush,
    ByteSlice.bytes]

theorem push_invalid_json_pushes_empty_witness :
    lrange (Push exampleEnv World.init "" (some rawNotJSON) "boom").redis
        (if "" = "" then "dlq" else "")
        = [] :: lrange World.init.redis (if "" = "" then "dlq" else "")
      ∧ (Push exampleEnv World.init "" (some rawNotJSON) "boom").DLQCount
        = World.init.DLQCount + 1 :=
  push_invalid_json_pushes_empty exampleEnv World.init "" "boom" (by rfl)

/-! ## Idempotence of the replacing upserts -/

theorem merge_merge_fields {ρ κ : Type} (f : ρ → κ) (t : List ρ) (onCond : ρ → Bool)
    (upd1 upd2 : ρ → ρ) (ins1 ins2 : ρ)
    (hon_upd : ∀ r, onCond r = true → onCond (upd1 r) = true) (hon_ins : onCond ins1 = true)
    (hupd : ∀ r, onCond r = true → f (upd2 (upd1 r)) = f (upd1 r))
    (hins : f (upd2 ins1) = f ins1) :
    (merge (merge t onCond upd1 ins1) onCond upd2 ins2).map f
      = (merge t onCond upd1 ins1).map f := by
  by_cases h : t.any onCond = true
  · have h1 : merge t onCond upd1 ins1 = t.map (fun r => if onCond r then upd1 r else r) := by
      simp [merge, h]
    have h2 : (t.map (fun r => if onCond r then upd1 r else r)).any onCond = true := by
      obtain ⟨r0, hr0, hon⟩ := List.any_eq_true.mp h
      exact List.any_eq_true.mpr ⟨upd1 r0, List.mem_map.mpr ⟨r0, hr0, by simp [hon]⟩,
        hon_upd r0 hon⟩
    rw [h1]
    simp only [merge, h2, if_true, List.map_map]
    apply List.map_congr_left
    intro r _
    by_cases hon : onCond r = true
    · simp [hon, hon_upd r hon, hupd r hon]
    · simp [hon]
  · have h1 : merge t onCond upd1 ins1 = t ++ [ins1] := by simp [merge, h]
    have h2 : (t ++ [ins1]).any onCond = true := by simp [hon_ins]
    rw [h1]
    simp only [merge, h2, if_true, List.map_map]
    apply List.map_congr_left
    intro r hr
    rcases List.mem_append.mp hr with hr | hr
    · have : onCond r ≠ true := fun hc => h (List.any_eq_true.mpr ⟨r, hr, hc⟩)
      simp [this]
    · simp only [List.mem_singleton] at hr
      subst hr
      simp [hon_ins, hins]


theorem mergeUsers_twice (n1 n2 : Time) (a b c : String) (t : List UserRow) :
    (mergeUsers n2 a b c (mergeUsers n1 a b c t)).map UserRow.fields
      = (mergeUsers n1 a b c t).map UserRow.fields := by
  unfold mergeUsers
  exact merge_merge_fields UserRow.fields t _ _ _ _ _ (fun r hr => by simpa using hr)
    (by simp) (fun r _ => by simp [UserRow.fields]) (by simp [UserRow.fields])

theorem mergeOrders_twice (n1 n2 : Time) (a b : String) (c : Decimal) (t : List OrderRow) :
    (mergeOrders n2 a b c (mergeOrders n1 a b c t)).map OrderRow.fields
      = (mergeOrders n1 a b c t).map OrderRow.fields := by
  unfold mergeOrders
  exact merge_merge_fields OrderRow.fields t _ _ _ _ _ (fun r hr => by simpa using hr)
    (by simp) (fun r _ => by simp [OrderRow.fields]) (by simp [OrderRow.fields])

theorem mergePayments_twice (n1 n2 : Time) (a b c : String) (d : Decimal) (t : List PaymentRow) :
    (mergePayments n2 a b c d (mergePayments n1 a b c d t)).map PaymentRow.fields
      = (mergePayments n1 a b c d t).map PaymentRow.fields := by
  unfold mergePayments
  exact merge_merge_fields PaymentRow.fields t _ _ _ _ _ (fun r hr => by simpa using hr)
    (by simp) (fun r _ => by simp [PaymentRow.fields]) (by simp [PaymentRow.fields])

theorem mergeInventory_zero_twice (n1 n2 : Time) (a : String) (t : List InventoryRow) :
    (mergeInventory n2 a 0 (mergeInventory n1 a 0 t)).map InventoryRow.fields
      = (mergeInventory n1 a 0 t).map InventoryRow.fields := by
  unfold mergeInventory
  exact merge_merge_fields InventoryRow.fields t _ _ _ _ _ (fun r hr => by simpa using hr)
    (by simp) (fun r _ => by simp [InventoryRow.fields]) (by simp [InventoryRow.fields])

theorem UpsertCall_run_err (E : Env) (w : World) (op : UpsertCall) (e : String)
    (h : (op.run E w).2 = some e) : (op.run E w).1.db = w.db := by
  cases op with
  | User a b c =>
    simp only [UpsertCall.run, UpsertUser] at h ⊢
    exact ExecContext_err E w _ e h
  | Order a b c =>
    simp only [UpsertCall.run, UpsertOrder] at h ⊢
    exact ExecContext_err E w _ e h
  | Payment a b c d =>
    simp only [UpsertCall.run, UpsertPayment] at h ⊢
    exact ExecContext_err E w _ e h
  | Inventory a d =>
    simp only [UpsertCall.run, UpsertInventory] at h ⊢
    exact ExecContext_err E w _ e h

/-- C8 (as amended). Every upsert call other than `UpsertInventory` with a non-zero
delta is idempotent: for every world and argument tuple, when the call succeeds, making
it again with identical arguments leaves the four tables with the same rows and the
same field values, `updated_at` apart. -/
theorem replacing_upserts_idempotent (E : Env) (w : World) (op : UpsertCall)
    (hok : (op.run E w).2 = none) (hrep : op.additive = false) :
    (op.run E (op.run E w).1).1.db.fields = (op.run E w).1.db.fields := by
  cases h2 : (op.run E (op.run E w).1).2 with
  | some e => rw [UpsertCall_run_err E _ op e h2]
  | none =>
    cases op with
    | User a b c =>
      simp only [UpsertCall.run] at hok h2 ⊢
      rw [UpsertUser_db E _ a b c h2, UpsertUser_db E w a b c hok]
      simp [Store.fields, mergeUsers_twice]
    | Order a b c =>
      simp only [UpsertCall.run] at hok h2 ⊢
      obtain ⟨d1, hc1, hdb1⟩ := UpsertOrder_db E w a b c hok
      obtain ⟨d2, hc2, hdb2⟩ := UpsertOrder_db E _ a b c h2
      have hdd : d2 = d1 := by
        rw [hc1] at hc2
        exact (Except.ok.inj hc2).symm
      subst hdd
      rw [hdb2, hdb1]
      simp [Store.fields, mergeOrders_twice]
    | Payment a b c x =>
      simp only [UpsertCall.run] at hok h2 ⊢
      obtain ⟨d1, hc1, hdb1⟩ := UpsertPayment_db E w a b c x hok
      obtain ⟨d2, hc2, hdb2⟩ := UpsertPayment_db E _ a b c x h2
      have hdd : d2 = d1 := by
        rw [hc1] at hc2
        exact (Except.ok.inj hc2).symm
      subst hdd
      rw [hdb2, hdb1]
      simp [Store.fields, mergePayments_twice]
    | Inventory a d =>
      have hd : d = 0 := by simpa [UpsertCall.additive] using hrep
      subst hd
      simp only [UpsertCall.run] at hok h2 ⊢
      rw [(UpsertInventory_db E _ a 0 h2).1, (UpsertInventory_db E w a 0 hok).1]
      simp [Store.fields, mergeInventory_zero_twice]

theorem replacing_upserts_idempotent_witness :
    ((UpsertCall.User "u1" "Ann" "ann@example.com").run exampleEnv
        ((UpsertCall.User "u1" "Ann" "ann@example.com").run exampleEnv World.init).1).1.db.fields
      = ((UpsertCall.User "u1" "Ann" "ann@example.com").run exampleEnv World.init).1.db.fields :=
  replacing_upserts_idempotent exampleEnv World.init (.User "u1" "Ann" "ann@example.com")
    (by decide) (by decide)

/-- C8 (counterexample). On the empty store, with no failing call, `UpsertInventory("X", 3)`
made twice leaves `qty = 6` for `X`, while made once it leaves `qty = 3`: the rows differ
in a column other than `updated_at`. -/
theorem upsertInventory_not_idempotent :
    ((UpsertCall.Inventory "X" 3).run exampleEnv World.init).2 = none
      ∧ ((UpsertCall.Inventory "X" 3).run exampleEnv
          ((UpsertCall.Inventory "X" 3).run exampleEnv World.init).1).2 = none
      ∧ ((UpsertCall.Inventory "X" 3).run exampleEnv World.init).1.db.fields
          = { users := [], orders := [], payments := [], inventory := [("X", 3)] }
      ∧ ((UpsertCall.Inventory "X" 3).run exampleEnv
          ((UpsertCall.Inventory "X" 3).run exampleEnv World.init).1).1.db.fields
          = { users := [], orders := [], payments := [], inventory := [("X", 6)] }
      ∧ ((UpsertCall.Inventory "X" 3).run exampleEnv
          ((UpsertCall.Inventory "X" 3).run exampleEnv World.init).1).1.db.fields
          ≠ ((UpsertCall.Inventory "X" 3).run exampleEnv World.init).1.db.fields := by
  decide

/-! ## Additive inventory -/

theorem mergeInventory_absent (now : Time) (X : String) (a : Int) (t : List InventoryRow)
    (hno : ∀ r ∈ t, r.sku ≠ X) :
    mergeInventory now X a t = t ++ [{ sku := X, qty := a, updated_at := now }] := by
  have h : ¬ (t.any (fun r => r.sku == X) = true) := by
    intro hc
    obtain ⟨r, hr, hk⟩ := List.any_eq_true.mp hc
    exact hno r hr (by simpa using hk)
  simp [mergeInventory, merge, h]

theorem mergeInventory_present (n1 n2 : Time) (X : String) (a b : Int) (t : List InventoryRow)
    (hno : ∀ r ∈ t, r.sku ≠ X) :
    mergeInventory n2 X b (t ++ [{ sku := X, qty := a, updated_at := n1 }])
      = t ++ [{ sku := X, qty := a + b, updated_at := n2 }] := by
  have hmap : t.map (fun r => if (r.sku == X) = true then
      ({ r with qty := r.qty + b, updated_at := n2 } : InventoryRow) else r) = t := by
    conv_rhs => rw [← List.map_id t]
    apply List.map_congr_left
    intro r hr
    have : (r.sku == X) = false := by simpa using hno r hr
    simp [this]
  simp only [mergeInventory, merge, List.any_append, List.any_cons, beq_self_eq_true,
    List.any_nil, Bool.or_false, Bool.or_true, if_true, List.map_append, List.map_cons,
    List.map_nil, hmap]

theorem UpsertInventory_dbCalls (E : Env) (w : World) (X : String) (a : Int) :
    (UpsertInventory E w X a).1.dbCalls = w.dbCalls + 1 := by
  have := (ExecContext_frame E w (stmtUpsertInventory X a)).2.2.2.2.2
  simpa [UpsertInventory] using this

theorem UpsertInventory_twice_inventory (E : Env) (w : World) (X : String) (a b : Int)
    (hno : ∀ r ∈ w.db.inventory, r.sku ≠ X)
    (h1 : (UpsertInventory E w X a).2 = none)
    (h2 : (UpsertInventory E (UpsertInventory E w X a).1 X b).2 = none) :
    (UpsertInventory E (UpsertInventory E w X a).1 X b).1.db.inventory
        = w.db.inventory ++ [{ sku := X, qty := a + b, updated_at := E.dbNow (w.dbCalls + 1) }]
      ∧ inInt32 a = true ∧ inInt32 (a + b) = true := by
  obtain ⟨hd1, hr1⟩ := UpsertInventory_db E w X a h1
  obtain ⟨hd2, hr2⟩ := UpsertInventory_db E _ X b h2
  rw [hd1] at hd2 hr2
  simp only [UpsertInventory_dbCalls] at hd2 hr2
  rw [mergeInventory_absent _ X a _ hno] at hd2 hr2 hr1
  rw [mergeInventory_present _ _ X a b _ hno] at hd2 hr2
  rw [hd2]
  refine ⟨rfl, ?_, ?_⟩
  · exact hr1 { sku := X, qty := a, updated_at := E.dbNow w.dbCalls } (by simp) rfl
  · exact hr2 { sku := X, qty := a + b, updated_at := E.dbNow (w.dbCalls + 1) } (by simp) rfl

/-- C9 (as amended). For every SKU `X` with no inventory row and all integers `a` and
`b`, when `UpsertInventory(X, a)` and then `UpsertInventory(X, b)` both succeed, there
is exactly one row for `X`, its `qty` is `a + b`, and the rows of the other SKUs are the
rows there were before; success implies that `a` and `a + b` fit the `INT` column. -/
theorem upsertInventory_adds (E : Env) (w : World) (X : String) (a b : Int)
    (hno : ∀ r ∈ w.db.inventory, r.sku ≠ X)
    (h1 : (UpsertInventory E w X a).2 = none)
    (h2 : (UpsertInventory E (UpsertInventory E w X a).1 X b).2 = none) :
    ((UpsertInventory E (UpsertInventory E w X a).1 X b).1.db.inventory.filter
        (fun r => r.sku == X)).map InventoryRow.fields = [(X, a + b)]
      ∧ (UpsertInventory E (UpsertInventory E w X a).1 X b).1.db.inventory.filter
        (fun r => r.sku != X) = w.db.inventory
      ∧ inInt32 a = true ∧ inInt32 (a + b) = true := by
  obtain ⟨hinv, ha, hab⟩ := UpsertInventory_twice_inventory E w X a b hno h1 h2
  rw [hinv]
  have hf1 : w.db.inventory.filter (fun r => r.sku == X) = [] := by
    rw [List.filter_eq_nil_iff]
    intro r hr
    simpa using hno r hr
  have hf2 : w.db.inventory.filter (fun r => r.sku != X) = w.db.inventory := by
    rw [List.filter_eq_self]
    intro r hr
    simpa using hno r hr
  refine ⟨?_, ?_, ha, hab⟩
  · simp [List.filter_append, hf1, InventoryRow.fields]
  · simp [List.filter_append, hf2]

theorem upsertInventory_adds_witness :
    ((UpsertInventory exampleEnv (UpsertInventory exampleEnv World.init "X" 3).1 "X"
        (-1)).1.db.inventory.filter (fun r => r.sku == "X")).map InventoryRow.fields
        = [("X", 3 + -1)]
      ∧ (UpsertInventory exampleEnv (UpsertInventory exampleEnv World.init "X" 3).1 "X"
        (-1)).1.db.inventory.filter (fun r => r.sku != "X") = World.init.db.inventory
      ∧ inInt32 3 = true ∧ inInt32 (3 + -1) = true :=
  upsertInventory_adds exampleEnv World.init "X" 3 (-1) (by decide) (by decide) (by decide)

/-- C9 (counterexample). On the empty store, with no driver error, `UpsertInventory("X",
2147483647)` succeeds and `UpsertInventory("X", 1)` is refused by the server, because
`2147483647 + 1` does not fit the `INT` column `qty`; the row of `X` keeps
`qty = 2147483647`, and no row of `X` has `qty = 2147483647 + 1`. -/
theorem upsertInventory_overflow :
    (UpsertInventory exampleEnv World.init "X" 2147483647).2 = none
      ∧ (UpsertInventory exampleEnv (UpsertInventory exampleEnv World.init "X" 2147483647).1
          "X" 1).2
          = some "mssql: Arithmetic overflow error converting expression to data type int."
      ∧ (UpsertInventory exampleEnv (UpsertInventory exampleEnv World.init "X" 2147483647).1
          "X" 1).1.db.inventory.map InventoryRow.fields = [("X", 2147483647)]
      ∧ ¬ ∃ r ∈ (UpsertInventory exampleEnv
            (UpsertInventory exampleEnv World.init "X" 2147483647).1 "X" 1).1.db.inventory,
          r.sku = "X" ∧ r.qty = 2147483647 + 1 := by
  decide

/-! ## GET /users/{id} -/

theorem GetUserWithLastOrders_notFound (E : Env) (w : World) (id : String) (n : Nat) :
    (∃ w1, (w1, Except.error SqlError.ErrNoRows) ∈ GetUserWithLastOrders E w id n)
      ↔ (E.dbFault w.dbCalls = none ∧ ∀ r ∈ w.db.users, r.user_id ≠ id) := by
  unfold GetUserWithLastOrders
  cases hf : E.dbFault w.dbCalls with
  | some e => simp
  | none =>
    simp only [true_and]
    cases hrs : w.db.users.filter (fun r => r.user_id == id) with
    | nil =>
      have : ∀ r ∈ w.db.users, r.user_id ≠ id := by
        intro r hr hk
        have := List.filter_eq_nil_iff.mp hrs r hr
        simp [hk] at this
      simp only [queryRow, List.flatMap_cons, List.flatMap_nil, List.append_nil,
        List.mem_singleton, Prod.mk.injEq, and_true]
      exact ⟨fun _ => this, fun _ => ⟨_, rfl⟩⟩
    | cons u rest =>
      have hu : u ∈ w.db.users.filter (fun r => r.user_id == id) := by simp [hrs]
      have hne : ¬ ∀ r ∈ w.db.users, r.user_id ≠ id := by
        intro hc
        have h1 := List.mem_filter.mp hu
        exact hc u h1.1 (by simpa using h1.2)
      simp only [hne, iff_false, not_exists]
      intro w1 hmem
      simp only [queryRow, List.mem_flatMap, List.mem_map] at hmem
      obtain ⟨r, ⟨u1, _, rfl⟩, hr⟩ := hmem
      simp only [] at hr
      cases hf2 : E.dbFault (w.dbCalls + 1) with
      | some e => simp [hf2] at hr
      | none => simp [hf2] at hr

/-- C10. The `GET /users/{id}` handler answers with a function of the storage result
alone. When `GetUserWithLastOrders` reports `sql.ErrNoRows`, which it does exactly when
the user query is executed and no user row has the requested id, the response is 404
with the body `{"error":"Not Found","message":"user not found"}`. For every other
storage error, whatever its text, the response is 500 with the one body
`{"error":"Internal Server Error","message":"internal server error"}`. The hypothesis
says how the encoder quotes these four plain texts. -/
theorem getUser_error_responses (E : Env) (encodeUser : UserWithOrders → Bytes) (w : World)
    (id : String)
    (hq : ∀ s ∈ ["Not Found", "user not found", "Internal Server Error",
      "internal server error"], E.marshalString s = utf8 ("\"" ++ s ++ "\"")) :
    getUser E encodeUser w id
        = (GetUserWithLastOrders E w id 5).map (fun o => (o.1, respondUser E encodeUser o.2))
      ∧ respondUser E encodeUser (.error .ErrNoRows)
        = { statusCode := 404, contentType := "application/json",
            body := utf8 "\x7b\"error\":\"Not Found\",\"message\":\"user not found\"\x7d\n" }
      ∧ (∀ msg : String, respondUser E encodeUser (.error (.other msg))
        = { statusCode := 500, contentType := "application/json",
            body := utf8 ("\x7b\"error\":\"Internal Server Error\","
              ++ "\"message\":\"internal server error\"\x7d\n") })
      ∧ ((∃ w1, (w1, Except.error SqlError.ErrNoRows) ∈ GetUserWithLastOrders E w id 5)
        ↔ (E.dbFault w.dbCalls = none ∧ ∀ r ∈ w.db.users, r.user_id ≠ id)) := by
  have h1 := hq "Not Found" (by simp)
  have h2 := hq "user not found" (by simp)
  have h3 := hq "Internal Server Error" (by simp)
  have h4 := hq "internal server error" (by simp)
  have e404 : respondUser E encodeUser (.error .ErrNoRows)
      = { statusCode := 404, contentType := "application/json",
          body := utf8 "\x7b\"error\":" ++ E.marshalString "Not Found"
            ++ (utf8 ",\"message\":" ++ E.marshalString "user not found") ++ utf8 "\x7d\n" } := rfl
  have e500 : ∀ msg : String, respondUser E encodeUser (.error (.other msg))
      = { statusCode := 500, contentType := "application/json",
          body := utf8 "\x7b\"error\":" ++ E.marshalString "Internal Server Error"
            ++ (utf8 ",\"message\":" ++ E.marshalString "internal server error")
            ++ utf8 "\x7d\n" } := fun _ => rfl
  refine ⟨rfl, ?_, ?_, GetUserWithLastOrders_notFound E w id 5⟩
  · rw [e404, h1, h2]
    decide
  · intro msg
    rw [e500 msg, h3, h4]
    decide

theorem getUser_error_responses_witness :
    getUser exampleEnv (fun _ => []) World.init "nonexistent-id"
        = (GetUserWithLastOrders exampleEnv World.init "nonexistent-id" 5).map
            (fun o => (o.1, respondUser exampleEnv (fun _ => []) o.2))
      ∧ respondUser exampleEnv (fun _ => []) (.error .ErrNoRows)
        = { statusCode := 404, contentType := "application/json",
            body := utf8 "\x7b\"error\":\"Not Found\",\"message\":\"user not found\"\x7d\n" }
      ∧ (∀ msg : String, respondUser exampleEnv (fun _ => []) (.error (.other msg))
        = { statusCode := 500, contentType := "application/json",
            body := utf8 ("\x7b\"error\":\"Internal Server Error\","
              ++ "\"message\":\"internal server error\"\x7d\n") })
      ∧ ((∃ w1, (w1, Except.error SqlError.ErrNoRows)
            ∈ GetUserWithLastOrders exampleEnv World.init "nonexistent-id" 5)
        ↔ (exampleEnv.dbFault World.init.dbCalls = none
            ∧ ∀ r ∈ World.init.db.users, r.user_id ≠ "nonexistent-id")) :=
  getUser_error_responses exampleEnv (fun _ => []) World.init "nonexistent-id"
    (by intro s hs; rfl)

/-! ## The producer's ticker -/

/-- C11 (evaluation at the failing inputs). With `EVENT_RATE=0` the rate is `0` and
`time.Second / time.Duration(rate)` panics with an integer division by zero. With
`EVENT_RATE=-1` the interval is negative, and with `EVENT_RATE=2000000000` it is `0`;
`time.NewTicker` panics on both. With the variable empty or not an integer the rate is
5 and the ticker has a period of 200 ms. -/
theorem producerTicker_on_bad_rates :
    eventRate (envWithRate "0") = 0
      ∧ producerTicker (envWithRate "0") = .error "runtime error: integer divide by zero"
      ∧ tickInterval (eventRate (envWithRate "-1")) = .ok (-1000000000)
      ∧ producerTicker (envWithRate "-1") = .error "non-positive interval for NewTicker"
      ∧ tickInterval (eventRate (envWithRate "2000000000")) = .ok 0
      ∧ producerTicker (envWithRate "2000000000") = .error "non-positive interval for NewTicker"
      ∧ producerTicker (envWithRate "") = .ok 200000000
      ∧ producerTicker (envWithRate "fast") = .ok 200000000 := by
  decide

end EventPipeline
